import Mathlib

/-!
# Verification of the ontology layer-classification pipeline

A shallow embedding of the ontology-service pipeline
(`ttl_parser` / `layer_classifier` / `cobit5_analyzer` / `iso17025_analyzer` /
`ontology_importer`).  Python dictionaries are embedded as association lists
over a JSON-like value type `Val`; the classifier, the two domain enhancers
and the importer are translated function for function from the source.
-/

set_option maxRecDepth 10000

namespace Maria

/-- JSON-like values: the dynamic data the Python pipeline passes around
(strings, booleans, numbers, `None`, lists, and dicts as association lists). -/
inductive Val where
  | str : String → Val
  | bool : Bool → Val
  | num : Nat → Val
  | null : Val
  | arr : List Val → Val
  | obj : List (String × Val) → Val
deriving Repr

/-- A Python dict: an ordered association list of string keys. -/
abbrev Obj := List (String × Val)

/-- First value bound to key `k` (Python dict lookup; keys are unique in
dicts built by the pipeline, and insertion order is preserved). -/
def lookup {α : Type} (o : List (String × α)) (k : String) : Option α :=
  match o with
  | [] => none
  | (k', v) :: t => if k' == k then some v else lookup t k

/-- Python `k in d`. -/
def hasKeyb (o : Obj) (k : String) : Bool :=
  match o with
  | [] => false
  | (k', _) :: t => k' == k || hasKeyb t k

/-- Python `d[k] = v`: replace in place when the key exists, else append. -/
def setKey (o : Obj) (k : String) (v : Val) : Obj :=
  match o with
  | [] => [(k, v)]
  | (k', v') :: t => if k' == k then (k', v) :: t else (k', v') :: setKey t k v

/-- View a value as a dict (the pipeline only applies it to dicts). -/
def asObj : Val → Obj
  | .obj o => o
  | _ => []

/-- `k in d` on a `Val`-level dict. -/
def vHasKey (v : Val) (k : String) : Bool := hasKeyb (asObj v) k

/-- `d.get(k)` on a `Val`-level dict. -/
def vLookup (v : Val) (k : String) : Option Val := lookup (asObj v) k

/-- Python `d.get(k, default)` for string-valued fields. -/
def getStrD (o : Obj) (k d : String) : String :=
  match lookup o k with
  | some (.str s) => s
  | _ => d

/-- Python `d.get(k, [])` for fields holding lists of strings. -/
def getStrListD (o : Obj) (k : String) : List String :=
  match lookup o k with
  | some (.arr l) => l.filterMap fun v => match v with | .str s => some s | _ => none
  | _ => []

/-- Python truthiness of `d.get(k)` (absent key is `None`, hence falsy). -/
def truthy : Option Val → Bool
  | none => false
  | some .null => false
  | some (.bool b) => b
  | some (.num n) => n != 0
  | some (.str s) => !s.isEmpty
  | some (.arr l) => !l.isEmpty
  | some (.obj l) => !l.isEmpty

/-- Python `len` of a stored value (lists, strings, dicts). -/
def lenOfVal : Val → Nat
  | .arr l => l.length
  | .str s => s.toList.length
  | .obj l => l.length
  | _ => 0

/-! ## String helpers mirroring the Python string operations used -/

/-- ASCII lower-casing of one character (`str.lower` on the pipeline's data). -/
def charLower (c : Char) : Char :=
  if 'A' ≤ c ∧ c ≤ 'Z' then Char.ofNat (c.toNat + 32) else c

/-- ASCII upper-casing of one character (`str.upper`). -/
def charUpper (c : Char) : Char :=
  if 'a' ≤ c ∧ c ≤ 'z' then Char.ofNat (c.toNat - 32) else c

/-- `str.lower()`. -/
def strLower (s : String) : String := (s.toList.map charLower).asString

/-- `str.upper()`. -/
def strUpper (s : String) : String := (s.toList.map charUpper).asString

/-- `s.startswith(t)` (also the anchored regex patterns `^owl:` …). -/
def strStarts (s t : String) : Bool := t.toList.isPrefixOf s.toList

/-- The regex patterns of the form `X$`: `s` ends with `t`. -/
def strEnds (s t : String) : Bool := t.toList.reverse.isPrefixOf s.toList.reverse

/-- Containment of character lists, with the same semantics as Python's
substring test `needle in hay`. -/
def listContains (n : List Char) : List Char → Bool
  | [] => n.isEmpty
  | c :: t => n.isPrefixOf (c :: t) || listContains n t

/-- Python `needle in hay` on strings. -/
def strContains (hay needle : String) : Bool := listContains needle.toList hay.toList

/-- Characters of `s` after its last occurrence of `c`
(`s.split(c)[-1]` when `c` occurs in `s`). -/
def afterLast (c : Char) (s : String) : String :=
  ((s.toList.reverse.takeWhile (fun x => x ≠ c)).reverse).asString

/-- Python character slicing `s[n:]`. -/
def strDropChars (s : String) (n : Nat) : String := (s.toList.drop n).asString

/-- Lexicographic code-point comparison of character lists (the order
Python's `sorted` uses on strings). -/
def charListLt : List Char → List Char → Bool
  | [], [] => false
  | [], _ :: _ => true
  | _ :: _, [] => false
  | a :: as, b :: bs =>
    if a.toNat < b.toNat then true
    else if b.toNat < a.toNat then false
    else charListLt as bs

/-- Python string `<`. -/
def strLt (a b : String) : Bool := charListLt a.toList b.toList

/-- Insert a string into a sorted duplicate-free list, keeping it sorted and
duplicate-free. -/
def insertSorted (s : String) : List String → List String
  | [] => [s]
  | x :: t => if s == x then x :: t else if strLt s x then s :: x :: t else x :: insertSorted s t

/-- Python `sorted(list(some_set))` for a set materialised from the list `l`:
the sorted, duplicate-free list with the same membership. -/
def sortedSet (l : List String) : List String := l.foldr insertSorted []

/-! ## LayerClassifier (`core/layer_classifier.py`) -/

/-- `LayerClassifier.business_keywords`. -/
def business_keywords : List String :=
  ["domain", "process", "goal", "objective", "enabler", "control",
   "governance", "management", "audit", "compliance", "risk",
   "stakeholder", "framework", "practice", "activity", "outcome",
   "metric", "kpi", "performance", "maturity", "capability",
   "service", "resource", "asset", "value", "benefit",
   "requirement", "standard", "policy", "procedure", "guideline",
   "laboratory", "test", "sample", "analysis", "result",
   "calibration", "measurement", "uncertainty", "traceability",
   "quality", "assurance", "accreditation", "certification"]

/-- `LayerClassifier.technical_keywords`. -/
def technical_keywords : List String :=
  ["property", "class", "individual", "restriction", "constraint",
   "axiom", "assertion", "inference", "reasoning", "ontology",
   "namespace", "prefix", "uri", "iri", "rdf", "owl", "rdfs",
   "domain", "range", "inverse", "functional", "transitive",
   "symmetric", "reflexive", "irreflexive", "asymmetric",
   "equivalent", "disjoint", "complement", "union", "intersection",
   "cardinality", "some", "only", "exactly", "min", "max",
   "annotation", "comment", "label", "seealso", "isdefinedby"]

/-- `LayerClassifier.core_keywords`. -/
def core_keywords : List String :=
  ["organization", "role", "responsibility", "person", "user",
   "system", "application", "data", "information", "document",
   "time", "date", "period", "duration", "event", "action",
   "status", "state", "type", "category", "classification"]

/-- The regex `^has[A-Z]` / `^is[A-Z]`: the literal stem followed by an
ASCII capital. -/
def startsThenCap (stem : String) (s : String) : Bool :=
  stem.toList.isPrefixOf s.toList &&
    (match s.toList.drop stem.toList.length with
     | c :: _ => decide ('A' ≤ c ∧ c ≤ 'Z')
     | [] => false)

/-- `LayerClassifier.technical_patterns` applied to a local name
(`re.search` with each pattern; all patterns are anchored). -/
def matchesTechnicalPatterns (s : String) : Bool :=
  startsThenCap "has" s || startsThenCap "is" s ||
  strEnds s "Property" || strEnds s "Class" ||
  strStarts s "owl:" || strStarts s "rdfs:" || strStarts s "rdf:" ||
  strEnds s "Restriction" || strEnds s "Constraint" || strEnds s "Axiom"

/-- `LayerClassifier.business_patterns` applied to a local name. -/
def matchesBusinessPatterns (s : String) : Bool :=
  strEnds s "Goal" || strEnds s "Process" || strEnds s "Domain" ||
  strEnds s "Enabler" || strEnds s "Control" || strEnds s "Framework" ||
  strEnds s "Standard" || strEnds s "Requirement" || strEnds s "Practice" ||
  strEnds s "Activity" || strEnds s "Outcome" || strEnds s "Metric"

/-- The lowercase text blob `f"{local_name} {prefixed_name} {label} {comment}
{description}"` built at the start of `_determine_layers`. -/
def textContent (e : Obj) : String :=
  strLower (getStrD e "local_name" "") ++ " " ++
  strLower (getStrD e "prefixed_name" "") ++ " " ++
  strLower (getStrD e "label" "") ++ " " ++
  strLower (getStrD e "comment" "") ++ " " ++
  strLower (getStrD e "description" "")

/-- `LayerClassifier._is_technical_entity`. -/
def isTechnicalEntity (e : Obj) (text : String) : Bool :=
  technical_keywords.any (fun k => strContains text k) ||
  matchesTechnicalPatterns (getStrD e "local_name" "") ||
  (let t := getStrD e "type" ""
   strContains t "Property" || t == "Class" || t == "Restriction") ||
  (let pn := getStrD e "prefixed_name" ""
   ["owl:", "rdfs:", "rdf:", "xsd:"].any (fun ns => strStarts pn ns))

/-- `LayerClassifier._is_business_entity`. -/
def isBusinessEntity (e : Obj) (text : String) : Bool :=
  business_keywords.any (fun k => strContains text k) ||
  matchesBusinessPatterns (getStrD e "local_name" "") ||
  (let pn := getStrD e "prefixed_name" ""
   ["cobit5:", "iso17025:", "bfo:", "sosa:"].any (fun ns => strStarts pn ns))

/-- The relationship-reference count summed in `_is_core_entity`
(sizes of `subclass_of`, `superclass_of`, `domain`, `range` where present). -/
def relCount (e : Obj) : Nat :=
  (match lookup e "subclass_of" with | some v => lenOfVal v | none => 0) +
  (match lookup e "superclass_of" with | some v => lenOfVal v | none => 0) +
  (match lookup e "domain" with | some v => lenOfVal v | none => 0) +
  (match lookup e "range" with | some v => lenOfVal v | none => 0)

/-- `LayerClassifier._is_core_entity`. -/
def isCoreEntity (e : Obj) (text : String) : Bool :=
  core_keywords.any (fun k => strContains text k) || decide (relCount e ≥ 3)

/-- The `business_domains` list inside `_classify_property`. -/
def business_domains : List String := ["Goal", "Process", "Domain", "Control", "Framework"]

/-- `LayerClassifier._classify_property` (the returned layer set, as a list). -/
def classifyProperty (e : Obj) : List String :=
  let pt := getStrD e "type" ""
  (if pt == "ObjectProperty" then
    (if (getStrListD e "domain" ++ getStrListD e "range").any
        (fun dr => business_domains.any (fun bd => strContains dr bd))
     then ["business"] else [])
   else if pt == "AnnotationProperty" then ["technical"] else []) ++
  (if truthy (lookup e "functional") || truthy (lookup e "inverse_functional")
   then ["technical"] else [])

/-- `LayerClassifier._classify_class`. -/
def classifyClass (e : Obj) : List String :=
  (if decide ((match lookup e "superclass_of" with | some v => lenOfVal v | none => 0) ≥ 3)
   then ["core"] else []) ++
  (if !truthy (lookup e "subclass_of") then ["core"] else [])

/-- The `business_types` list inside `_classify_individual`. -/
def business_types : List String := ["goal", "process", "domain", "control", "enabler", "framework"]

/-- `LayerClassifier._classify_individual`. -/
def classifyIndividual (e : Obj) : List String :=
  if business_types.any (fun bt => strContains (strLower (getStrD e "type_local_name" "")) bt)
  then ["business"] else []

/-- The layers accumulated by steps 2–5 of `_determine_layers` (set
membership is what matters; the set is materialised at the end). -/
def rawLayers (e : Obj) (entityType : String) : List String :=
  (if isTechnicalEntity e (textContent e) then ["technical"] else []) ++
  (if isBusinessEntity e (textContent e) then ["business"] else []) ++
  (if isCoreEntity e (textContent e) then ["core"] else []) ++
  (if entityType == "property" then classifyProperty e
   else if entityType == "class" then classifyClass e
   else if entityType == "individual" then classifyIndividual e
   else [])

/-- `LayerClassifier._determine_layers`: the sorted, duplicate-free layer
list for one entity, defaulting to `["technical"]` when steps 2–5 added
nothing. -/
def determineLayers (e : Obj) (entityType : String) : List String :=
  sortedSet (if (rawLayers e entityType).isEmpty then ["technical"] else rawLayers e entityType)

/-- `LayerClassifier._get_primary_layer`. -/
def getPrimaryLayer (layers : List String) : String :=
  if layers.isEmpty then "technical"
  else if layers.contains "business" then "business"
  else if layers.contains "core" then "core"
  else "technical"

/-- The loop body of `_classify_entities`: copy the entity and attach
`layers` and `primary_layer`. -/
def classifyEntity (entityType : String) (v : Val) : Val :=
  .obj (setKey (setKey (asObj v) "layers"
          (.arr ((determineLayers (asObj v) entityType).map .str)))
          "primary_layer" (.str (getPrimaryLayer (determineLayers (asObj v) entityType))))

/-- `LayerClassifier._classify_entities` over one category list. -/
def classifyEntities (entityType : String) (v : Val) : Val :=
  match v with
  | .arr l => .arr (l.map (classifyEntity entityType))
  | x => x

/-- Entity list stored under a category key of a model. -/
def entitiesOf (m : Val) (cat : String) : List Val :=
  match vLookup m cat with
  | some (.arr l) => l
  | _ => []

/-- The `layers` list attached to an entity. -/
def entityLayers (v : Val) : List String := getStrListD (asObj v) "layers"

/-- Number of entities of category `cat` in `d` whose `primary_layer`
(default `"technical"`) equals `layer` — one counting bucket of
`_get_layer_statistics`. -/
def statCount (d : Obj) (layer cat : String) : Nat :=
  ((match lookup d cat with
    | some (.arr es) => es
    | _ => []).filter
    (fun e => getStrD (asObj e) "primary_layer" "technical" == layer)).length

/-- Number of entities of category `cat` in `d` with more than one layer
(`len(entity.get("layers", [])) > 1`). -/
def multiCount (d : Obj) (cat : String) : Nat :=
  ((match lookup d cat with
    | some (.arr es) => es
    | _ => []).filter
    (fun e => decide (1 < (match lookup (asObj e) "layers" with
                           | some v => lenOfVal v
                           | none => 0)))).length

/-- One row of the statistics dict: counts per category plus their total
(`stats[layer]["total"] = sum(stats[layer].values())`). -/
def statRow (c p i : Nat) : Val :=
  .obj [("classes", .num c), ("properties", .num p), ("individuals", .num i),
        ("total", .num (c + p + i))]

/-- `LayerClassifier._get_layer_statistics`.  The `multi_layer` row also
receives entities whose `primary_layer` literally equals `"multi_layer"`,
exactly as the `if primary in stats` test in the source allows. -/
def getLayerStatistics (d : Obj) : Val :=
  .obj [("business", statRow (statCount d "business" "classes")
           (statCount d "business" "properties") (statCount d "business" "individuals")),
        ("technical", statRow (statCount d "technical" "classes")
           (statCount d "technical" "properties") (statCount d "technical" "individuals")),
        ("core", statRow (statCount d "core" "classes")
           (statCount d "core" "properties") (statCount d "core" "individuals")),
        ("multi_layer", statRow
           (statCount d "multi_layer" "classes" + multiCount d "classes")
           (statCount d "multi_layer" "properties" + multiCount d "properties")
           (statCount d "multi_layer" "individuals" + multiCount d "individuals"))]

/-- One conditional reclassification (`if cat in data: data[cat] = …`).
Reading the category from the accumulating dict equals reading it from the
original, since the three category keys are distinct. -/
def classifyStep (d : Obj) (cat ty : String) : Obj :=
  if hasKeyb d cat then setKey d cat (classifyEntities ty ((lookup d cat).getD .null)) else d

/-- The three conditional category reclassifications of `classify`, in
source order. -/
def classifySteps (d : Obj) : Obj :=
  classifyStep (classifyStep (classifyStep d "classes" "class")
    "properties" "property") "individuals" "individual"

/-- `LayerClassifier.classify`: pass error-marked models through unchanged,
otherwise classify every category present and attach `layer_statistics`. -/
def classify (m : Val) : Val :=
  match m with
  | .obj d =>
    if hasKeyb d "error" then m
    else .obj (setKey (classifySteps d) "layer_statistics" (getLayerStatistics (classifySteps d)))
  | v => v

/-! ## TTLParser (`core/ttl_parser.py`) -/

/-- `TTLParser._get_local_name`: the text after the last `#` when a `#`
occurs, else after the last `/` when a `/` occurs, else the whole URI. -/
def getLocalName (uri : String) : String :=
  if strContains uri "#" then afterLast '#' uri
  else if strContains uri "/" then afterLast '/' uri
  else uri

/-- The prefixed form produced inside `_get_prefixed_name`'s loop:
`f"{prefix}:{local_part}" if prefix else local_part`. -/
def mkPrefixed (entry : String × String) (uri : String) : String :=
  let localPart := strDropChars uri entry.2.toList.length
  if entry.1.isEmpty then localPart else entry.1 ++ ":" ++ localPart

/-- `TTLParser._get_prefixed_name`: scan the namespace table in insertion
order and use the first namespace URI that is a prefix of the URI; fall back
to the local name. -/
def getPrefixedName (nsMap : List (String × String)) (uri : String) : String :=
  match nsMap with
  | [] => getLocalName uri
  | entry :: t =>
    if strStarts uri entry.2 then mkPrefixed entry uri else getPrefixedName t uri

/-- Characters of `s` after the last occurrence of any character in `cs`. -/
def afterLastAny (cs : List Char) (s : String) : String :=
  ((s.toList.reverse.takeWhile (fun x => !cs.contains x)).reverse).asString

/-- Written from the specification's words, for comparison with
`getPrefixedName` (spec §4.1): the prefixed name is `prefix:local-part` "by
longest-namespace-prefix match, falling back to the bare local name (text
after the last `#` or `/`) when no namespace matches". -/
def specLongestMatchName (nsMap : List (String × String)) (uri : String) : String :=
  let matching := nsMap.filter (fun entry => strStarts uri entry.2)
  match matching.foldl
      (fun best entry =>
        match best with
        | none => some entry
        | some b => if entry.2.toList.length > b.2.toList.length then some entry else some b)
      none with
  | some entry => entry.1 ++ ":" ++ strDropChars uri entry.2.toList.length
  | none => afterLastAny ['#', '/'] uri

/-- The record built for each class by `TTLParser._extract_classes`
(the graph-derived field values are taken as parameters; note that no
`type` key is ever set on a class record). -/
def mkClassData (uri localName prefixedName label comment description : String)
    (subclassOf superclassOf equivalentClass disjointWith : List String) : Val :=
  .obj [("uri", .str uri),
        ("local_name", .str localName),
        ("prefixed_name", .str prefixedName),
        ("label", .str label),
        ("comment", .str comment),
        ("description", .str description),
        ("subclass_of", .arr (subclassOf.map .str)),
        ("superclass_of", .arr (superclassOf.map .str)),
        ("equivalent_class", .arr (equivalentClass.map .str)),
        ("disjoint_with", .arr (disjointWith.map .str))]

/-- The record built by `TTLParser._build_property_data` (graph-derived
values as parameters; `prop_type` is the `type` key). -/
def buildPropertyData (uri localName prefixedName propType label comment description : String)
    (dom rng subpropertyOf inverseOf : List String)
    (functional inverseFunctional transitive symmetric asymmetric reflexive irreflexive : Bool) :
    Val :=
  .obj [("uri", .str uri),
        ("local_name", .str localName),
        ("prefixed_name", .str prefixedName),
        ("type", .str propType),
        ("label", .str label),
        ("comment", .str comment),
        ("description", .str description),
        ("domain", .arr (dom.map .str)),
        ("range", .arr (rng.map .str)),
        ("subproperty_of", .arr (subpropertyOf.map .str)),
        ("inverse_of", .arr (inverseOf.map .str)),
        ("functional", .bool functional),
        ("inverse_functional", .bool inverseFunctional),
        ("transitive", .bool transitive),
        ("symmetric", .bool symmetric),
        ("asymmetric", .bool asymmetric),
        ("reflexive", .bool reflexive),
        ("irreflexive", .bool irreflexive)]

/-! ## ISO17025Analyzer (`frameworks/iso17025_analyzer.py`) -/

/-- `ISO17025Analyzer.laboratory_business_entities`. -/
def laboratory_business_entities : List String :=
  ["Laboratory", "TestMethod", "CalibrationMethod", "Sample", "Specimen",
   "TestResult", "CalibrationResult", "Certificate", "Report",
   "Equipment", "Instrument", "Standard", "ReferenceStandard",
   "Uncertainty", "Traceability", "Accreditation", "Competence",
   "QualityControl", "QualityAssurance", "Validation", "Verification",
   "NonConformity", "CorrectiveAction", "PreventiveAction",
   "CustomerComplaint", "InternalAudit", "ManagementReview"]

/-- `ISO17025Analyzer.laboratory_technical_entities`. -/
def laboratory_technical_entities : List String :=
  ["MeasurementProcedure", "TestProcedure", "CalibrationProcedure",
   "SamplingProcedure", "DataProcessing", "StatisticalAnalysis",
   "UncertaintyCalculation", "TraceabilityChain", "MeasurementModel",
   "EnvironmentalCondition", "SafetyRequirement", "TechnicalRecord"]

/-- `ISO17025Analyzer.laboratory_core_entities`. -/
def laboratory_core_entities : List String :=
  ["Person", "Staff", "TechnicalPersonnel", "Customer", "Client",
   "Supplier", "AccreditationBody", "RegulatoryAuthority",
   "Document", "Record", "Procedure", "Policy", "Manual",
   "Location", "Facility", "Environment", "Time", "Date"]

/-- `ISO17025Analyzer._classify_iso17025_entity` (the `entity_type`
argument is accepted but unused, as in the source). -/
def classifyIso17025Entity (entityName _entityType : String) : List String :=
  let lower := strLower entityName
  (if laboratory_business_entities.any (fun n => strContains lower (strLower n))
   then ["business"] else []) ++
  (if laboratory_technical_entities.any (fun n => strContains lower (strLower n))
   then ["technical"] else []) ++
  (if laboratory_core_entities.any (fun n => strContains lower (strLower n))
   then ["core"] else [])

/-- `ISO17025Analyzer._is_measurement_property`. -/
def isMeasurementProperty (e : Obj) : Bool :=
  let nm := strLower (getStrD e "local_name" "")
  ["measure", "calibrat", "uncertain", "trace", "accura", "precis"].any
    (fun t => strContains nm t)

/-- `ISO17025Analyzer._get_iso17025_primary_layer` (identical priority rule,
without the generic classifier's empty-list guard). -/
def isoGetPrimaryLayer (layers : List String) : String :=
  if layers.contains "business" then "business"
  else if layers.contains "core" then "core"
  else "technical"

/-- `ISO17025Analyzer._get_iso17025_clause`: first clause (in dict order
4,5,6,7,8) one of whose keywords occurs in the lowered name; `None`
otherwise. -/
def getIso17025Clause (entityName : String) : Option String :=
  let lower := strLower entityName
  let hit := fun (ks : List String) => ks.any (fun k => strContains lower k)
  if hit ["management", "system", "policy", "organization"] then some "4"
  else if hit ["structure", "personnel", "responsibility", "authority"] then some "5"
  else if hit ["resource", "equipment", "facility", "environment", "competence"] then some "6"
  else if hit ["process", "method", "procedure", "sample", "test", "calibration"] then some "7"
  else if hit ["record", "document", "review", "audit", "improvement"] then some "8"
  else none

/-- The Python `Optional[str]` results stored into entity dicts
(`None` becomes a JSON null). -/
def optStrVal : Option String → Val
  | some s => .str s
  | none => .null

/-- `ISO17025Analyzer._get_laboratory_relevance`. -/
def getLaboratoryRelevance (entityName : String) : String :=
  let lower := strLower entityName
  if ["test", "calibration", "measurement", "sample", "result", "uncertainty"].any
      (fun t => strContains lower t) then "high"
  else if ["equipment", "method", "procedure", "standard", "quality"].any
      (fun t => strContains lower t) then "medium"
  else "low"

/-- `ISO17025Analyzer._assess_measurement_relevance`. -/
def assessMeasurementRelevance (e : Obj) : String :=
  let nm := strLower (getStrD e "local_name" "")
  if ["measure", "calibrat", "uncertain", "trace", "accura"].any
      (fun t => strContains nm t) then "high"
  else if strContains nm "has" &&
      ["value", "result", "data"].any (fun t => strContains nm t) then "medium"
  else "low"

/-- `ISO17025Analyzer._get_laboratory_function`: first function (in dict
order) one of whose keywords occurs in the lowered name or type name. -/
def getLaboratoryFunction (e : Obj) : String :=
  let nm := strLower (getStrD e "local_name" "")
  let ty := strLower (getStrD e "type_local_name" "")
  let hit := fun (ks : List String) =>
    ks.any (fun k => strContains nm k || strContains ty k)
  if hit ["test", "analysis", "examination"] then "testing"
  else if hit ["calibrat", "standard", "reference"] then "calibration"
  else if hit ["sample", "specimen", "collection"] then "sampling"
  else if hit ["quality", "control", "assurance"] then "quality"
  else if hit ["management", "administration", "governance"] then "management"
  else if hit ["technical", "method", "procedure"] then "technical"
  else "general"

/-- The merged layer set of `_enhance_class_classification` (ISO17025):
existing layers united with the ISO classification of the local name. -/
def isoClassLayers (e : Obj) : List String :=
  sortedSet (getStrListD e "layers" ++ classifyIso17025Entity (getStrD e "local_name" "") "class")

/-- Loop body of `ISO17025Analyzer._enhance_class_classification`. -/
def isoEnhanceClassEntity (v : Val) : Val :=
  .obj (setKey (setKey (setKey (setKey (asObj v)
          "layers" (.arr ((isoClassLayers (asObj v)).map .str)))
          "primary_layer" (.str (isoGetPrimaryLayer (isoClassLayers (asObj v)))))
          "iso17025_clause" (optStrVal (getIso17025Clause (getStrD (asObj v) "local_name" ""))))
          "laboratory_relevance" (.str (getLaboratoryRelevance (getStrD (asObj v) "local_name" ""))))

/-- The merged layer set of `_enhance_property_classification` (ISO17025). -/
def isoPropLayers (e : Obj) : List String :=
  sortedSet (getStrListD e "layers" ++
    (classifyIso17025Entity (getStrD e "local_name" "") "property" ++
     (if isMeasurementProperty e then ["business"] else [])))

/-- Loop body of `ISO17025Analyzer._enhance_property_classification`. -/
def isoEnhancePropertyEntity (v : Val) : Val :=
  .obj (setKey (setKey (setKey (asObj v)
          "layers" (.arr ((isoPropLayers (asObj v)).map .str)))
          "primary_layer" (.str (isoGetPrimaryLayer (isoPropLayers (asObj v)))))
          "measurement_relevance" (.str (assessMeasurementRelevance (asObj v))))

/-- The merged layer set of `_enhance_individual_classification` (ISO17025);
the declared-type name is tested by exact membership in the business and
core lexicons. -/
def isoIndivLayers (e : Obj) : List String :=
  sortedSet (getStrListD e "layers" ++
    (classifyIso17025Entity (getStrD e "local_name" "") "individual" ++
     (if laboratory_business_entities.contains (getStrD e "type_local_name" "") then ["business"]
      else if laboratory_core_entities.contains (getStrD e "type_local_name" "") then ["core"]
      else [])))

/-- Loop body of `ISO17025Analyzer._enhance_individual_classification`. -/
def isoEnhanceIndividualEntity (v : Val) : Val :=
  .obj (setKey (setKey (setKey (asObj v)
          "layers" (.arr ((isoIndivLayers (asObj v)).map .str)))
          "primary_layer" (.str (isoGetPrimaryLayer (isoIndivLayers (asObj v)))))
          "laboratory_function" (.str (getLaboratoryFunction (asObj v))))

/-- Map an enhancement loop over a category list. -/
def mapArr (f : Val → Val) (v : Val) : Val :=
  match v with
  | .arr l => .arr (l.map f)
  | x => x

/-- `ISO17025Analyzer._generate_iso17025_analysis` (coverage percentages are
represented as naturals; every value the source can produce here is an
integral multiple of 20). -/
def generateIso17025Analysis (d : Obj) : Val :=
  let collect := fun (cat : String) =>
    (match lookup d cat with
     | some (.arr es) => es
     | _ => []).filterMap fun e =>
      match lookup (asObj e) "iso17025_clause" with
      | some (.str s) => if s.isEmpty then none else some s
      | _ => none
  let clauses := sortedSet (collect "classes" ++ collect "properties" ++ collect "individuals")
  let covered := clauses.length
  .obj [("clauses_covered", .arr (clauses.map .str)),
        ("laboratory_coverage", .obj
          [("clauses_covered", .num covered),
           ("total_clauses", .num 5),
           ("coverage_percentage", .num (covered * 100 / 5))]),
        ("measurement_capabilities", .obj []),
        ("compliance_readiness", .str
          (if covered ≥ 4 then "high" else if covered ≥ 2 then "medium" else "low"))]

/-- One conditional enhancement pass over a category
(`if cat in data: data[cat] = [loop body per entity]`). -/
def enhanceStep (f : Val → Val) (d : Obj) (cat : String) : Obj :=
  if hasKeyb d cat then setKey d cat (mapArr f ((lookup d cat).getD .null)) else d

/-- `ISO17025Analyzer.enhance_classification`.  Note: unlike
`LayerClassifier.classify`, no check for the `"error"` marker is made. -/
def isoEnhanceClassification (m : Val) : Val :=
  match m with
  | .obj d =>
    .obj (setKey
      (enhanceStep isoEnhanceIndividualEntity
        (enhanceStep isoEnhancePropertyEntity
          (enhanceStep isoEnhanceClassEntity d "classes") "properties") "individuals")
      "iso17025_analysis"
      (generateIso17025Analysis
        (enhanceStep isoEnhanceIndividualEntity
          (enhanceStep isoEnhancePropertyEntity
            (enhanceStep isoEnhanceClassEntity d "classes") "properties") "individuals")))
  | v => v

/-! ## COBIT5Analyzer (`frameworks/cobit5_analyzer.py`) -/

/-- The keys of `COBIT5Analyzer.cobit5_domains`, in dict order. -/
def cobit5_domain_codes : List String := ["EDM", "APO", "BAI", "DSS", "MEA"]

/-- `COBIT5Analyzer.business_entities`. -/
def cobit5_business_entities : List String :=
  ["EnterpriseGoal", "ITGoal", "Goal", "Process", "Domain",
   "Enabler", "Control", "Framework", "Practice", "Activity",
   "Outcome", "Metric", "Stakeholder", "Role", "Responsibility",
   "RiskAssessment", "ComplianceRequirement", "AuditFinding"]

/-- `COBIT5Analyzer.technical_entities`. -/
def cobit5_technical_entities : List String :=
  ["ObjectProperty", "DatatypeProperty", "AnnotationProperty",
   "Restriction", "Constraint", "ValidationRule", "InferenceRule"]

/-- `COBIT5Analyzer.core_entities`. -/
def cobit5_core_entities : List String :=
  ["Organization", "Person", "System", "Application", "Information",
   "Service", "Resource", "Asset", "Time", "Date", "Status", "Type"]

/-- `COBIT5Analyzer._classify_cobit5_entity` (the `entity_type` argument is
unused, as in the source). -/
def classifyCobit5Entity (entityName _entityType : String) : List String :=
  let lower := strLower entityName
  (if cobit5_domain_codes.any (fun c => strContains lower (strLower c)) ||
      cobit5_business_entities.any (fun n => strContains lower (strLower n))
   then ["business"] else []) ++
  (if cobit5_technical_entities.any (fun n => strContains lower (strLower n))
   then ["technical"] else []) ++
  (if cobit5_core_entities.any (fun n => strContains lower (strLower n))
   then ["core"] else [])

/-- `COBIT5Analyzer._has_business_domain_range`. -/
def hasBusinessDomainRange (dom rng : List String) : Bool :=
  (dom ++ rng).any fun ref =>
    cobit5_business_entities.any fun be => strContains (strLower ref) (strLower be)

/-- `COBIT5Analyzer._get_cobit5_primary_layer` (identical priority rule). -/
def cobitGetPrimaryLayer (layers : List String) : String :=
  if layers.contains "business" then "business"
  else if layers.contains "core" then "core"
  else "technical"

/-- `COBIT5Analyzer._get_cobit5_domain`: first domain code occurring in the
upper-cased name. -/
def getCobit5Domain (entityName : String) : Option String :=
  let upper := strUpper entityName
  cobit5_domain_codes.find? (fun c => strContains upper c)

/-- `COBIT5Analyzer._get_business_relevance`. -/
def getBusinessRelevance (entityName : String) : String :=
  let lower := strLower entityName
  if ["goal", "process", "domain", "control", "audit", "compliance"].any
      (fun t => strContains lower t) then "high"
  else if ["enabler", "framework", "practice", "activity", "metric"].any
      (fun t => strContains lower t) then "medium"
  else "low"

/-- `COBIT5Analyzer._assess_governance_relevance`. -/
def assessGovernanceRelevance (e : Obj) : String :=
  let nm := strLower (getStrD e "local_name" "")
  if ["governance", "control", "audit", "compliance", "risk", "monitor"].any
      (fun t => strContains nm t) then "high"
  else if strContains nm "has" || strContains nm "is" then "medium"
  else "low"

/-- One alternative of the regex `(EDM|APO|BAI|DSS|MEA)\d{2}` matched at the
head of a character list. -/
def codeAt (l : List Char) : Option String :=
  cobit5_domain_codes.findSome? fun code =>
    if code.toList.isPrefixOf l then
      match l.drop code.toList.length with
      | d1 :: d2 :: _ =>
        if d1.isDigit && d2.isDigit then some ((code.toList ++ [d1, d2]).asString) else none
      | _ => none
    else none

/-- Leftmost match of the process-code regex (`re.search` semantics). -/
def scanCode : List Char → Option String
  | [] => none
  | c :: t =>
    match codeAt (c :: t) with
    | some s => some s
    | none => scanCode t

/-- `COBIT5Analyzer._extract_process_code`. -/
def extractProcessCode (entityName : String) : Option String :=
  scanCode (strUpper entityName).toList

/-- The merged layer set of `_enhance_class_classification` (COBIT5). -/
def cobitClassLayers (e : Obj) : List String :=
  sortedSet (getStrListD e "layers" ++ classifyCobit5Entity (getStrD e "local_name" "") "class")

/-- Loop body of `COBIT5Analyzer._enhance_class_classification`. -/
def cobitEnhanceClassEntity (v : Val) : Val :=
  .obj (setKey (setKey (setKey (setKey (asObj v)
          "layers" (.arr ((cobitClassLayers (asObj v)).map .str)))
          "primary_layer" (.str (cobitGetPrimaryLayer (cobitClassLayers (asObj v)))))
          "cobit5_domain" (optStrVal (getCobit5Domain (getStrD (asObj v) "local_name" ""))))
          "business_relevance" (.str (getBusinessRelevance (getStrD (asObj v) "local_name" ""))))

/-- The merged layer set of `_enhance_property_classification` (COBIT5). -/
def cobitPropLayers (e : Obj) : List String :=
  sortedSet (getStrListD e "layers" ++
    (classifyCobit5Entity (getStrD e "local_name" "") "property" ++
     (if hasBusinessDomainRange (getStrListD e "domain") (getStrListD e "range")
      then ["business"] else [])))

/-- Loop body of `COBIT5Analyzer._enhance_property_classification`. -/
def cobitEnhancePropertyEntity (v : Val) : Val :=
  .obj (setKey (setKey (setKey (asObj v)
          "layers" (.arr ((cobitPropLayers (asObj v)).map .str)))
          "primary_layer" (.str (cobitGetPrimaryLayer (cobitPropLayers (asObj v)))))
          "governance_relevance" (.str (assessGovernanceRelevance (asObj v))))

/-- The merged layer set of `_enhance_individual_classification` (COBIT5). -/
def cobitIndivLayers (e : Obj) : List String :=
  sortedSet (getStrListD e "layers" ++
    (classifyCobit5Entity (getStrD e "local_name" "") "individual" ++
     (if cobit5_business_entities.contains (getStrD e "type_local_name" "") then ["business"]
      else if cobit5_core_entities.contains (getStrD e "type_local_name" "") then ["core"]
      else [])))

/-- Loop body of `COBIT5Analyzer._enhance_individual_classification`. -/
def cobitEnhanceIndividualEntity (v : Val) : Val :=
  .obj (setKey (setKey (setKey (asObj v)
          "layers" (.arr ((cobitIndivLayers (asObj v)).map .str)))
          "primary_layer" (.str (cobitGetPrimaryLayer (cobitIndivLayers (asObj v)))))
          "cobit5_process_code" (optStrVal (extractProcessCode (getStrD (asObj v) "local_name" ""))))

/-- Keep first occurrences only (`if domain not in analysis["domains_found"]`). -/
def dedupFirst (l : List String) : List String :=
  l.foldl (fun acc s => if acc.contains s then acc else acc ++ [s]) []

/-- `d.get(k, 0)`-style numeric read used by the readiness tiers. -/
def getNumD (o : Obj) (k : String) : Nat :=
  match lookup o k with
  | some (.num n) => n
  | _ => 0

/-- `COBIT5Analyzer._generate_cobit5_analysis` (integral percentage, as for
the ISO analysis). -/
def generateCobit5Analysis (d : Obj) : Val :=
  let collect := fun (cat : String) =>
    (match lookup d cat with
     | some (.arr es) => es
     | _ => []).filterMap fun e =>
      match lookup (asObj e) "cobit5_domain" with
      | some (.str s) => if s.isEmpty then none else some s
      | _ => none
  let found := dedupFirst (collect "classes" ++ collect "properties" ++ collect "individuals")
  let layerStats : Obj := match lookup d "layer_statistics" with
    | some (.obj ls) => ls
    | _ => []
  let businessEntities := getNumD (match lookup layerStats "business" with
    | some (.obj b) => (b : Obj)
    | _ => []) "total"
  .obj [("domains_found", .arr (found.map .str)),
        ("governance_coverage", .obj
          [("domains_found", .num found.length),
           ("total_domains", .num 5),
           ("coverage_percentage", .num (found.length * 100 / 5))]),
        ("process_distribution", .obj []),
        ("business_readiness", .str
          (if businessEntities ≥ 20 then "high"
           else if businessEntities ≥ 10 then "medium" else "low"))]

/-- `COBIT5Analyzer.enhance_classification`.  As for the ISO variant, no
check for the `"error"` marker is made. -/
def cobitEnhanceClassification (m : Val) : Val :=
  match m with
  | .obj d =>
    .obj (setKey
      (enhanceStep cobitEnhanceIndividualEntity
        (enhanceStep cobitEnhancePropertyEntity
          (enhanceStep cobitEnhanceClassEntity d "classes") "properties") "individuals")
      "cobit5_analysis"
      (generateCobit5Analysis
        (enhanceStep cobitEnhanceIndividualEntity
          (enhanceStep cobitEnhancePropertyEntity
            (enhanceStep cobitEnhanceClassEntity d "classes") "properties") "individuals")))
  | v => v

/-! ## OntologyImporter (`core/ontology_importer.py`)

The external sink (`add_memory`) is modelled as a function from the
submission record to the value it reports back — per the sink contract, a
receipt or a failure value. -/

/-- The argument tuple of one `add_memory` call. -/
structure Submission where
  name : String
  body : Val
  groupId : String
  source : String
  sourceDescription : String

/-- `str.title()` for the single lowercase words it is applied to
(`"business"` ↦ `"Business"` …). -/
def strTitle (s : String) : String :=
  match s.toList with
  | [] => ""
  | c :: t => (charUpper c :: t.map charLower).asString

/-- The per-layer bucketing shared by the three `_import_*_by_layer`
methods: entities whose `primary_layer` (default `"technical"`) is `layer`,
in input order. -/
def bucketByLayer (es : List Val) (layer : String) : List Val :=
  es.filter (fun e => getStrD (asObj e) "primary_layer" "technical" == layer)

/-- The `add_memory` call made for one non-empty layer bucket of one
category (`titleWord` is `Classes`/`Properties`/`Individuals`, `bodyKey` the
corresponding dict key). -/
def layerSubmission (fw gid titleWord bodyKey : String) (es : List Val) (layer : String) :
    Submission :=
  { name := fw ++ " " ++ titleWord ++ " - " ++ strTitle layer ++ " Layer"
    body := .obj [("layer", .str layer), ("framework", .str fw),
                  (bodyKey, .arr (bucketByLayer es layer)),
                  ("count", .num (bucketByLayer es layer).length)]
    groupId := gid
    source := "json"
    sourceDescription := fw ++ " " ++ layer ++ " layer " ++ bodyKey }

/-- `_import_classes_by_layer` / `_import_properties_by_layer` /
`_import_individuals_by_layer`: submit each non-empty bucket in the fixed
order business, technical, core and record the sink's answers. -/
def importCatByLayer (sink : Submission → Val) (fw gid titleWord bodyKey : String)
    (es : List Val) : Obj :=
  ((["business", "technical", "core"].filter
      (fun layer => !(bucketByLayer es layer).isEmpty)).map
    (fun layer => (layer, sink (layerSubmission fw gid titleWord bodyKey es layer))))

/-- Grouping step of `_import_relationships`: relationships keyed by
`predicate_local_name` (default `"unknown"`), keys in first-seen order. -/
def addToGroup (acc : List (String × List Val)) (k : String) (v : Val) :
    List (String × List Val) :=
  match acc with
  | [] => [(k, [v])]
  | (k', l) :: t => if k' == k then (k', l ++ [v]) :: t else (k', l) :: addToGroup t k v

/-- The `relationship_groups` dict of `_import_relationships`. -/
def groupRels (rels : List Val) : List (String × List Val) :=
  rels.foldl (fun acc rel =>
    addToGroup acc (getStrD (asObj rel) "predicate_local_name" "unknown") rel) []

/-- The `add_memory` call made for one relationship group. -/
def relSubmission (fw gid relType : String) (relList : List Val) : Submission :=
  { name := fw ++ " Relationships - " ++ relType
    body := .obj [("relationship_type", .str relType), ("framework", .str fw),
                  ("relationships", .arr relList), ("count", .num relList.length)]
    groupId := gid
    source := "json"
    sourceDescription := fw ++ " " ++ relType ++ " relationships" }

/-- `_import_relationships`: submit each group with a non-empty list. -/
def importRelationships (sink : Submission → Val) (fw gid : String) (rels : List Val) : Obj :=
  (groupRels rels).filterMap fun kv =>
    if kv.2.length > 0 then some (kv.1, sink (relSubmission fw gid kv.1 kv.2)) else none

/-- The `add_memory` call of `_import_metadata`. -/
def metadataSubmission (fw gid : String) (metadata : Val) : Submission :=
  { name := fw ++ " Ontology Metadata"
    body := metadata
    groupId := gid
    source := "json"
    sourceDescription := "Ontology metadata for " ++ fw ++ " framework" }

/-- Raw category list stored in the model. -/
def esOf (d : Obj) (cat : String) : List Val :=
  match lookup d cat with
  | some (.arr l) => l
  | _ => []

/-- The `import_results` dict of `import_with_layers`: one entry per present
part of the model, built in the source's order. -/
def importResults (sink : Submission → Val) (d : Obj) (gid fw : String) : Obj :=
  (if hasKeyb d "metadata" then
    [("metadata", sink (metadataSubmission fw gid ((lookup d "metadata").getD .null)))]
   else []) ++
  (if hasKeyb d "classes" then
    [("classes", .obj (importCatByLayer sink fw gid "Classes" "classes" (esOf d "classes")))]
   else []) ++
  (if hasKeyb d "properties" then
    [("properties", .obj (importCatByLayer sink fw gid "Properties" "properties" (esOf d "properties")))]
   else []) ++
  (if hasKeyb d "individuals" then
    [("individuals", .obj (importCatByLayer sink fw gid "Individuals" "individuals" (esOf d "individuals")))]
   else []) ++
  (if hasKeyb d "relationships" then
    [("relationships", .obj (importRelationships sink fw gid (esOf d "relationships")))]
   else [])

/-- Episode counting of `_generate_import_summary`: nested dict values that
carry a `"message"` key. -/
def episodesCreated (results : Obj) : Nat :=
  (results.map fun kv =>
    match kv.2 with
    | .obj inner =>
      (inner.filter fun kv2 =>
        match kv2.2 with
        | .obj o2 => hasKeyb o2 "message"
        | _ => false).length
    | _ => 0).sum

/-- `_generate_import_summary` (`now` stands for the wall-clock timestamp
`datetime.now(timezone.utc).isoformat()`, passed in explicitly). -/
def generateImportSummary (now : String) (results : Obj) (d : Obj) : Val :=
  let stats := match lookup d "statistics" with
    | some (.obj s) => s
    | _ => []
  .obj [("import_timestamp", .str now),
        ("episodes_created", .num (episodesCreated results)),
        ("entities_processed", .obj
          [("classes", .num (getNumD stats "classes")),
           ("properties", .num (getNumD stats "object_properties" + getNumD stats "datatype_properties")),
           ("individuals", .num (getNumD stats "individuals")),
           ("relationships", .num (getNumD stats "relationships"))]),
        ("layer_distribution", (lookup d "layer_statistics").getD (.obj [])),
        ("original_triples", .num (getNumD stats "total_triples")),
        ("import_categories", .arr (results.map (fun kv => .str kv.1)))]

/-- `OntologyImporter.import_with_layers` for a value-returning sink: error
models short-circuit to a failure record; otherwise every present part is
submitted and the per-group answers are recorded. -/
def importWithLayers (sink : Submission → Val) (now : String) (m : Val)
    (gid fw : String) : Val :=
  match m with
  | .obj d =>
    if hasKeyb d "error" then
      .obj [("success", .bool false), ("error", (lookup d "error").getD .null)]
    else
      let results := importResults sink d gid fw
      .obj [("success", .bool true), ("results", .obj results),
            ("summary", generateImportSummary now results d)]
  | v => v

/-- The result recorded for group `grp` of category `cat` in an import
result. -/
def importResultFor (r : Val) (cat grp : String) : Option Val :=
  match lookup (asObj ((lookup (asObj r) "results").getD (.obj []))) cat with
  | some (.obj catRes) => lookup catRes grp
  | _ => none

/-- The submission `import_with_layers` makes for group `grp` of category
`cat` — a function of the model alone, independent of the sink and of every
other group. -/
def layerGroupSubmission (fw gid titleWord bodyKey : String) (es : List Val) (grp : String) :
    Option Submission :=
  if (["business", "technical", "core"] : List String).contains grp &&
      !(bucketByLayer es grp).isEmpty
  then some (layerSubmission fw gid titleWord bodyKey es grp) else none

/-- The submission made for group `grp` of category `cat` of model `m`,
independent of the sink. -/
def groupSubmission (m : Val) (gid fw cat grp : String) : Option Submission :=
  match m with
  | .obj d =>
    if hasKeyb d "error" then none
    else if cat == "classes" then
      if hasKeyb d "classes" then
        layerGroupSubmission fw gid "Classes" "classes" (esOf d "classes") grp
      else none
    else if cat == "properties" then
      if hasKeyb d "properties" then
        layerGroupSubmission fw gid "Properties" "properties" (esOf d "properties") grp
      else none
    else if cat == "individuals" then
      if hasKeyb d "individuals" then
        layerGroupSubmission fw gid "Individuals" "individuals" (esOf d "individuals") grp
      else none
    else if cat == "relationships" then
      if hasKeyb d "relationships" then
        (lookup (groupRels (esOf d "relationships")) grp).map
          (relSubmission fw gid grp)
      else none
    else none
  | _ => none

/-- Every key the generic classifier reads from an entity dict. -/
def classifierReadKeys : List String :=
  ["local_name", "prefixed_name", "label", "comment", "description",
   "type", "type_local_name", "subclass_of", "superclass_of",
   "domain", "range", "functional", "inverse_functional"]

/-! ## Concrete inputs used by witnesses and counterexamples -/

/-- An error-marked model, as produced by a failed parse. -/
def c4ErrModel : Val := .obj [("error", .str "Parsing failed: bad syntax")]

/-- A class record exactly as `_extract_classes` builds it (no `type` key). -/
def govControlClass : Val :=
  mkClassData "http://example.org/onto#GovernanceControl" "GovernanceControl"
    "ex:GovernanceControl" "" "" "" [] [] [] []

/-- An object property with three domain/range references. -/
def threeRefProperty : Val :=
  buildPropertyData "http://example.org/onto#relates" "relates" "ex:relates"
    "ObjectProperty" "" "" "" ["http://example.org/onto#A", "http://example.org/onto#B"]
    ["http://example.org/onto#C"] [] [] false false false false false false false

/-- A tiny parsed model with one class. -/
def oneClassModel : Val := .obj [("classes", .arr [govControlClass])]

/-- A tiny parsed model with metadata and one class. -/
def metaClassModel : Val :=
  .obj [("metadata", .obj [("uri", .str "http://example.org/onto")]),
        ("classes", .arr [govControlClass])]

/-- An already-classified entity carrying only the `technical` layer. -/
def techOnlyEntity : Val :=
  .obj [("local_name", .str "Widget"), ("layers", .arr [.str "technical"]),
        ("primary_layer", .str "technical")]

/-- A tiny classified model with entities in two layers. -/
def twoLayerModel : Val :=
  .obj [("classes", .arr
          [.obj [("local_name", .str "A"), ("primary_layer", .str "business")],
           .obj [("local_name", .str "B"), ("primary_layer", .str "technical")]])]

/-- A sink that answers each submission with its name. -/
def nameSink : Submission → Val := fun s => .str s.name

/-- The ISO17025 analysis object computed for a model with no entity
categories (as on an error-marked model). -/
def isoEmptyAnalysis : Val :=
  .obj [("clauses_covered", .arr []),
        ("laboratory_coverage", .obj
          [("clauses_covered", .num 0), ("total_clauses", .num 5),
           ("coverage_percentage", .num 0)]),
        ("measurement_capabilities", .obj []),
        ("compliance_readiness", .str "low")]

/-- The COBIT5 analysis object computed for a model with no entity
categories (as on an error-marked model). -/
def cobitEmptyAnalysis : Val :=
  .obj [("domains_found", .arr []),
        ("governance_coverage", .obj
          [("domains_found", .num 0), ("total_domains", .num 5),
           ("coverage_percentage", .num 0)]),
        ("process_distribution", .obj []),
        ("business_readiness", .str "low")]

/-! ## Basic lemmas about the dict embedding -/

theorem lookup_setKey_self (o : Obj) (k : String) (v : Val) :
    lookup (setKey o k v) k = some v := by
  induction o with
  | nil => simp [setKey, lookup]
  | cons hd t ih =>
    obtain ⟨k', v'⟩ := hd
    by_cases h : k' = k
    · subst h; simp [setKey, lookup]
    · have hb : (k' == k) = false := by simp [h]
      simp [setKey, lookup, hb, ih]

theorem lookup_setKey_ne (o : Obj) (k k' : String) (v : Val) (h : k' ≠ k) :
    lookup (setKey o k v) k' = lookup o k' := by
  induction o with
  | nil =>
    have hb : (k == k') = false := by simp [Ne.symm h]
    simp [setKey, lookup, hb]
  | cons hd t ih =>
    obtain ⟨k₀, v₀⟩ := hd
    by_cases h0 : k₀ = k
    · subst h0
      have hb : (k₀ == k₀) = true := by simp
      have hb' : (k₀ == k') = false := by simp [Ne.symm h]
      simp [setKey, lookup, hb']
    · have hb : (k₀ == k) = false := by simp [h0]
      by_cases h1 : k₀ = k'
      · subst h1; simp [setKey, lookup, hb]
      · have hb1 : (k₀ == k') = false := by simp [h1]
        simp [setKey, lookup, hb, hb1, ih]

theorem setKey_lookup_eq (o : Obj) (k : String) (v : Val) (h : lookup o k = some v) :
    setKey o k v = o := by
  induction o with
  | nil => simp [lookup] at h
  | cons hd t ih =>
    obtain ⟨k₀, v₀⟩ := hd
    by_cases h0 : k₀ = k
    · subst h0
      simp [lookup] at h
      simp [setKey, h]
    · have hb : (k₀ == k) = false := by simp [h0]
      simp [lookup, hb] at h
      simp [setKey, hb, ih h]

theorem hasKeyb_setKey_self (o : Obj) (k : String) (v : Val) :
    hasKeyb (setKey o k v) k = true := by
  induction o with
  | nil => simp [setKey, hasKeyb]
  | cons hd t ih =>
    obtain ⟨k₀, v₀⟩ := hd
    by_cases h0 : k₀ = k
    · subst h0; simp [setKey, hasKeyb]
    · have hb : (k₀ == k) = false := by simp [h0]
      simp [setKey, hasKeyb, hb, ih]

theorem hasKeyb_setKey_ne (o : Obj) (k k' : String) (v : Val) (h : k' ≠ k) :
    hasKeyb (setKey o k v) k' = hasKeyb o k' := by
  induction o with
  | nil =>
    have hb : (k == k') = false := by simp [Ne.symm h]
    simp [setKey, hasKeyb, hb]
  | cons hd t ih =>
    obtain ⟨k₀, v₀⟩ := hd
    by_cases h0 : k₀ = k
    · subst h0
      have hb' : (k₀ == k') = false := by simp [Ne.symm h]
      simp [setKey, hasKeyb, hb']
    · have hb : (k₀ == k) = false := by simp [h0]
      simp [setKey, hasKeyb, hb, ih]

theorem hasKeyb_false_lookup : ∀ (o : Obj) (k : String),
    hasKeyb o k = false → lookup o k = none := by
  intro o k
  induction o with
  | nil => intro _; rfl
  | cons hd t ih =>
    intro h
    obtain ⟨k₀, v₀⟩ := hd
    simp [hasKeyb] at h
    obtain ⟨h1, h2⟩ := h
    have hb : (k₀ == k) = false := by simp [h1]
    simp [lookup, hb, ih h2]

theorem lookup_append {α : Type} (a b : List (String × α)) (k : String) :
    lookup (a ++ b) k = ((lookup a k).orElse fun _ => lookup b k) := by
  induction a with
  | nil => simp [lookup, Option.orElse]
  | cons hd t ih =>
    obtain ⟨k₀, v₀⟩ := hd
    by_cases h0 : k₀ = k
    · subst h0; simp [lookup, Option.orElse]
    · have hb : (k₀ == k) = false := by simp [h0]
      simp [lookup, hb, ih]

theorem lookup_map_keyed {α : Type} (l : List String) (g : String → α) (k : String) :
    lookup (l.map fun x => (x, g x)) k = if l.contains k then some (g k) else none := by
  induction l with
  | nil => simp [lookup]
  | cons x t ih =>
    by_cases h0 : x = k
    · subst h0; simp [lookup]
    · have hb : (x == k) = false := by simp [h0]
      have hk : ¬ k = x := fun hh => h0 hh.symm
      simp [lookup, hb, ih, List.contains_cons, hk]

theorem lookup_map_pair {α β : Type} (l : List (String × α)) (f : String → α → β)
    (k : String) :
    lookup (l.map fun kv => (kv.1, f kv.1 kv.2)) k = (lookup l k).map (f k) := by
  induction l with
  | nil => simp [lookup]
  | cons hd t ih =>
    obtain ⟨k₀, v₀⟩ := hd
    by_cases h0 : k₀ = k
    · subst h0; simp [lookup]
    · have hb : (k₀ == k) = false := by simp [h0]
      simp [lookup, hb, ih]

/-! ## Lemmas about `sortedSet` -/

theorem mem_insertSorted (a s : String) (l : List String) :
    a ∈ insertSorted s l ↔ a = s ∨ a ∈ l := by
  induction l with
  | nil => simp [insertSorted]
  | cons x t ih =>
    unfold insertSorted
    by_cases h0 : (s == x) = true
    · have hsx : s = x := by simpa using h0
      subst hsx
      rw [if_pos h0]
      constructor
      · intro h; exact Or.inr h
      · rintro (h | h)
        · exact h ▸ List.mem_cons_self _ _
        · exact h
    · rw [if_neg h0]
      by_cases hlt : strLt s x = true
      · rw [if_pos hlt]
        simp [List.mem_cons]
      · rw [if_neg hlt]
        simp only [List.mem_cons, ih]
        tauto

theorem mem_sortedSet (a : String) (l : List String) :
    a ∈ sortedSet l ↔ a ∈ l := by
  induction l with
  | nil => simp [sortedSet]
  | cons x t ih =>
    show a ∈ insertSorted x (sortedSet t) ↔ _
    rw [mem_insertSorted]
    simp [ih]

theorem sortedSet_ne_nil (l : List String) (h : l ≠ []) : sortedSet l ≠ [] := by
  intro hs
  match l, h with
  | x :: t, _ =>
    have : x ∈ sortedSet (x :: t) := (mem_sortedSet x _).mpr (List.mem_cons_self _ _)
    rw [hs] at this
    exact List.not_mem_nil x this

/-! ## Lemmas about `determineLayers` and `getPrimaryLayer` -/

theorem determineLayers_congr (e₁ e₂ : Obj) (ty : String)
    (h : ∀ k ∈ classifierReadKeys, lookup e₁ k = lookup e₂ k) :
    determineLayers e₁ ty = determineLayers e₂ ty := by
  have h1 := h "local_name" (by simp [classifierReadKeys])
  have h2 := h "prefixed_name" (by simp [classifierReadKeys])
  have h3 := h "label" (by simp [classifierReadKeys])
  have h4 := h "comment" (by simp [classifierReadKeys])
  have h5 := h "description" (by simp [classifierReadKeys])
  have h6 := h "type" (by simp [classifierReadKeys])
  have h7 := h "type_local_name" (by simp [classifierReadKeys])
  have h8 := h "subclass_of" (by simp [classifierReadKeys])
  have h9 := h "superclass_of" (by simp [classifierReadKeys])
  have h10 := h "domain" (by simp [classifierReadKeys])
  have h11 := h "range" (by simp [classifierReadKeys])
  have h12 := h "functional" (by simp [classifierReadKeys])
  have h13 := h "inverse_functional" (by simp [classifierReadKeys])
  simp only [determineLayers, rawLayers, textContent, isTechnicalEntity, isBusinessEntity,
    isCoreEntity, relCount, classifyProperty, classifyClass, classifyIndividual,
    getStrD, getStrListD, h1, h2, h3, h4, h5, h6, h7, h8, h9, h10, h11, h12, h13]

theorem sortedSet_default_ne_nil (l : List String) :
    sortedSet (if l.isEmpty then ["technical"] else l) ≠ [] := by
  by_cases h : l.isEmpty = true
  · rw [if_pos h]
    exact sortedSet_ne_nil _ (by simp)
  · rw [if_neg h]
    exact sortedSet_ne_nil _ (by simpa [List.isEmpty_iff] using h)

theorem determineLayers_ne_nil (e : Obj) (ty : String) : determineLayers e ty ≠ [] := by
  unfold determineLayers
  exact sortedSet_default_ne_nil _

theorem mem_classifyProperty (e : Obj) (y : String) (h : y ∈ classifyProperty e) :
    y = "business" ∨ y = "technical" := by
  unfold classifyProperty at h
  rcases List.mem_append.mp h with h' | h'
  · split at h'
    · split at h' <;> simp_all
    · split at h' <;> simp_all
  · split at h' <;> simp_all

theorem mem_classifyClass (e : Obj) (y : String) (h : y ∈ classifyClass e) :
    y = "core" := by
  unfold classifyClass at h
  rcases List.mem_append.mp h with h' | h' <;> (split at h' <;> simp_all)

theorem mem_classifyIndividual (e : Obj) (y : String) (h : y ∈ classifyIndividual e) :
    y = "business" := by
  unfold classifyIndividual at h
  split at h <;> simp_all

theorem mem_rawLayers_sub (e : Obj) (ty : String) (x : String)
    (hx : x ∈ rawLayers e ty) : x = "business" ∨ x = "core" ∨ x = "technical" := by
  unfold rawLayers at hx
  rcases List.mem_append.mp hx with h | h
  · rcases List.mem_append.mp h with h' | h'
    · rcases List.mem_append.mp h' with h'' | h''
      · split at h'' <;> simp_all
      · split at h'' <;> simp_all
    · split at h' <;> simp_all
  · split at h
    · rcases mem_classifyProperty e x h with h' | h' <;> simp [h']
    · split at h
      · simp [mem_classifyClass e x h]
      · split at h
        · simp [mem_classifyIndividual e x h]
        · simp at h

theorem mem_determineLayers_sub (e : Obj) (ty : String) (x : String)
    (hx : x ∈ determineLayers e ty) : x = "business" ∨ x = "core" ∨ x = "technical" := by
  unfold determineLayers at hx
  rw [mem_sortedSet] at hx
  by_cases hE : (rawLayers e ty).isEmpty = true
  · rw [if_pos hE] at hx
    simp at hx
    right; right; exact hx
  · rw [if_neg hE] at hx
    exact mem_rawLayers_sub e ty x hx

theorem contains_mem (l : List String) (a : String) : l.contains a = true ↔ a ∈ l := by
  simp

theorem getPrimaryLayer_mem (L : List String) (hne : L ≠ [])
    (hsub : ∀ x ∈ L, x = "business" ∨ x = "core" ∨ x = "technical") :
    getPrimaryLayer L ∈ L := by
  unfold getPrimaryLayer
  have hE : L.isEmpty = false := by simpa [List.isEmpty_iff] using hne
  rw [if_neg (by simp [hE])]
  by_cases hb : L.contains "business" = true
  · rw [if_pos hb]
    exact (contains_mem L "business").mp hb
  · rw [if_neg hb]
    by_cases hc : L.contains "core" = true
    · rw [if_pos hc]
      exact (contains_mem L "core").mp hc
    · rw [if_neg hc]
      match L, hne with
      | x :: t, _ =>
        rcases hsub x (List.mem_cons_self _ _) with h | h | h
        · exact absurd ((contains_mem _ _).mpr (h ▸ List.mem_cons_self x t)) hb
        · exact absurd ((contains_mem _ _).mpr (h ▸ List.mem_cons_self x t)) hc
        · exact h ▸ List.mem_cons_self x t

theorem getPrimaryLayer_mem_determineLayers (e : Obj) (ty : String) :
    getPrimaryLayer (determineLayers e ty) ∈ determineLayers e ty :=
  getPrimaryLayer_mem _ (determineLayers_ne_nil e ty) (mem_determineLayers_sub e ty)

/-! ## Lemmas about classified entities -/

theorem filterMap_map_str (l : List String) :
    ((l.map Val.str).filterMap fun v => match v with | .str s => some s | _ => none) = l := by
  induction l with
  | nil => rfl
  | cons x t ih => simp [ih]

theorem lookup_classifyEntity_layers (ty : String) (v : Val) :
    lookup (asObj (classifyEntity ty v)) "layers" =
      some (Val.arr ((determineLayers (asObj v) ty).map Val.str)) := by
  unfold classifyEntity
  simp only [asObj]
  rw [lookup_setKey_ne _ _ _ _ (by decide), lookup_setKey_self]

theorem lookup_classifyEntity_primary (ty : String) (v : Val) :
    lookup (asObj (classifyEntity ty v)) "primary_layer" =
      some (Val.str (getPrimaryLayer (determineLayers (asObj v) ty))) := by
  unfold classifyEntity
  simp only [asObj]
  rw [lookup_setKey_self]

theorem entityLayers_classifyEntity (ty : String) (v : Val) :
    entityLayers (classifyEntity ty v) = determineLayers (asObj v) ty := by
  unfold entityLayers getStrListD
  rw [lookup_classifyEntity_layers]
  exact filterMap_map_str _

theorem primary_classifyEntity (ty : String) (v : Val) :
    getStrD (asObj (classifyEntity ty v)) "primary_layer" "" =
      getPrimaryLayer (determineLayers (asObj v) ty) := by
  unfold getStrD
  rw [lookup_classifyEntity_primary]

theorem classifyEntity_lookup_other (ty : String) (v : Val) (k : String)
    (h1 : k ≠ "layers") (h2 : k ≠ "primary_layer") :
    lookup (asObj (classifyEntity ty v)) k = lookup (asObj v) k := by
  unfold classifyEntity
  simp only [asObj]
  rw [lookup_setKey_ne _ _ _ _ h2, lookup_setKey_ne _ _ _ _ h1]

theorem determineLayers_classifyEntity (ty ty' : String) (v : Val) :
    determineLayers (asObj (classifyEntity ty' v)) ty = determineLayers (asObj v) ty := by
  apply determineLayers_congr
  intro k hk
  apply classifyEntity_lookup_other
  · intro hkk; subst hkk; simp [classifierReadKeys] at hk
  · intro hkk; subst hkk; simp [classifierReadKeys] at hk

theorem classifyEntity_idem (ty : String) (v : Val) :
    classifyEntity ty (classifyEntity ty v) = classifyEntity ty v := by
  conv_lhs => rw [classifyEntity]
  rw [determineLayers_classifyEntity]
  rw [setKey_lookup_eq _ _ _ (lookup_classifyEntity_layers ty v)]
  rw [setKey_lookup_eq _ _ _ (lookup_classifyEntity_primary ty v)]
  rfl

theorem hasKeyb_eq_isSome (o : Obj) (k : String) :
    hasKeyb o k = (lookup o k).isSome := by
  induction o with
  | nil => rfl
  | cons hd t ih =>
    obtain ⟨k₀, v₀⟩ := hd
    by_cases h0 : k₀ = k
    · subst h0; simp [hasKeyb, lookup]
    · have hb : (k₀ == k) = false := by simp [h0]
      simp [hasKeyb, lookup, hb, ih]

theorem lookup_classifyStep_ne (d : Obj) (cat ty k : String) (h : k ≠ cat) :
    lookup (classifyStep d cat ty) k = lookup d k := by
  unfold classifyStep
  split
  · exact lookup_setKey_ne _ _ _ _ h
  · rfl

theorem hasKeyb_classifyStep (d : Obj) (cat ty k : String) :
    hasKeyb (classifyStep d cat ty) k = hasKeyb d k := by
  unfold classifyStep
  split
  · by_cases h : k = cat
    · subst h
      rw [hasKeyb_setKey_self]
      simp_all
    · exact hasKeyb_setKey_ne _ _ _ _ h
  · rfl

theorem lookup_classifyStep_self (d : Obj) (cat ty : String) :
    lookup (classifyStep d cat ty) cat = (lookup d cat).map (classifyEntities ty) := by
  unfold classifyStep
  by_cases h : hasKeyb d cat = true
  · rw [if_pos h, lookup_setKey_self]
    rw [hasKeyb_eq_isSome] at h
    match hv : lookup d cat with
    | some v => simp [hv]
    | none => rw [hv] at h; simp at h
  · rw [if_neg h]
    rw [hasKeyb_eq_isSome] at h
    match hv : lookup d cat with
    | some v => rw [hv] at h; simp at h
    | none => simp

theorem lookup_classifySteps_classes (d : Obj) :
    lookup (classifySteps d) "classes" = (lookup d "classes").map (classifyEntities "class") := by
  unfold classifySteps
  rw [lookup_classifyStep_ne _ _ _ _ (by decide), lookup_classifyStep_ne _ _ _ _ (by decide),
    lookup_classifyStep_self]

theorem lookup_classifySteps_properties (d : Obj) :
    lookup (classifySteps d) "properties" =
      (lookup d "properties").map (classifyEntities "property") := by
  unfold classifySteps
  rw [lookup_classifyStep_ne _ _ _ _ (by decide), lookup_classifyStep_self,
    lookup_classifyStep_ne _ _ _ _ (by decide)]

theorem lookup_classifySteps_individuals (d : Obj) :
    lookup (classifySteps d) "individuals" =
      (lookup d "individuals").map (classifyEntities "individual") := by
  unfold classifySteps
  rw [lookup_classifyStep_self, lookup_classifyStep_ne _ _ _ _ (by decide),
    lookup_classifyStep_ne _ _ _ _ (by decide)]

theorem lookup_classifySteps_ne (d : Obj) (k : String)
    (h1 : k ≠ "classes") (h2 : k ≠ "properties") (h3 : k ≠ "individuals") :
    lookup (classifySteps d) k = lookup d k := by
  unfold classifySteps
  rw [lookup_classifyStep_ne _ _ _ _ h3, lookup_classifyStep_ne _ _ _ _ h2,
    lookup_classifyStep_ne _ _ _ _ h1]

theorem hasKeyb_classifySteps (d : Obj) (k : String) :
    hasKeyb (classifySteps d) k = hasKeyb d k := by
  unfold classifySteps
  rw [hasKeyb_classifyStep, hasKeyb_classifyStep, hasKeyb_classifyStep]

theorem getLayerStatistics_congr (x y : Obj)
    (hc : lookup x "classes" = lookup y "classes")
    (hp : lookup x "properties" = lookup y "properties")
    (hi : lookup x "individuals" = lookup y "individuals") :
    getLayerStatistics x = getLayerStatistics y := by
  unfold getLayerStatistics statCount multiCount
  rw [hc, hp, hi]

theorem classifyEntities_idem (ty : String) (v : Val) :
    classifyEntities ty (classifyEntities ty v) = classifyEntities ty v := by
  unfold classifyEntities
  match v with
  | .arr l =>
    simp only []
    congr 1
    rw [List.map_map]
    apply List.map_congr_left
    intro a _
    exact classifyEntity_idem ty a
  | .str s => rfl
  | .bool b => rfl
  | .num n => rfl
  | .null => rfl
  | .obj o => rfl

/-! ## Lemmas about the enhancers' per-entity layer merge -/

theorem entityLayers_isoEnhanceClassEntity (v : Val) :
    entityLayers (isoEnhanceClassEntity v) = isoClassLayers (asObj v) := by
  unfold entityLayers getStrListD isoEnhanceClassEntity
  simp only [asObj]
  rw [lookup_setKey_ne _ _ _ _ (by decide), lookup_setKey_ne _ _ _ _ (by decide),
    lookup_setKey_ne _ _ _ _ (by decide), lookup_setKey_self]
  exact filterMap_map_str _

theorem entityLayers_isoEnhancePropertyEntity (v : Val) :
    entityLayers (isoEnhancePropertyEntity v) = isoPropLayers (asObj v) := by
  unfold entityLayers getStrListD isoEnhancePropertyEntity
  simp only [asObj]
  rw [lookup_setKey_ne _ _ _ _ (by decide), lookup_setKey_ne _ _ _ _ (by decide),
    lookup_setKey_self]
  exact filterMap_map_str _

theorem entityLayers_isoEnhanceIndividualEntity (v : Val) :
    entityLayers (isoEnhanceIndividualEntity v) = isoIndivLayers (asObj v) := by
  unfold entityLayers getStrListD isoEnhanceIndividualEntity
  simp only [asObj]
  rw [lookup_setKey_ne _ _ _ _ (by decide), lookup_setKey_ne _ _ _ _ (by decide),
    lookup_setKey_self]
  exact filterMap_map_str _

theorem entityLayers_cobitEnhanceClassEntity (v : Val) :
    entityLayers (cobitEnhanceClassEntity v) = cobitClassLayers (asObj v) := by
  unfold entityLayers getStrListD cobitEnhanceClassEntity
  simp only [asObj]
  rw [lookup_setKey_ne _ _ _ _ (by decide), lookup_setKey_ne _ _ _ _ (by decide),
    lookup_setKey_ne _ _ _ _ (by decide), lookup_setKey_self]
  exact filterMap_map_str _

theorem entityLayers_cobitEnhancePropertyEntity (v : Val) :
    entityLayers (cobitEnhancePropertyEntity v) = cobitPropLayers (asObj v) := by
  unfold entityLayers getStrListD cobitEnhancePropertyEntity
  simp only [asObj]
  rw [lookup_setKey_ne _ _ _ _ (by decide), lookup_setKey_ne _ _ _ _ (by decide),
    lookup_setKey_self]
  exact filterMap_map_str _

theorem entityLayers_cobitEnhanceIndividualEntity (v : Val) :
    entityLayers (cobitEnhanceIndividualEntity v) = cobitIndivLayers (asObj v) := by
  unfold entityLayers getStrListD cobitEnhanceIndividualEntity
  simp only [asObj]
  rw [lookup_setKey_ne _ _ _ _ (by decide), lookup_setKey_ne _ _ _ _ (by decide),
    lookup_setKey_self]
  exact filterMap_map_str _

theorem mem_sortedSet_append_left (x : String) (a b : List String) (h : x ∈ a) :
    x ∈ sortedSet (a ++ b) :=
  (mem_sortedSet x _).mpr (List.mem_append_left b h)

theorem classifyStep_of_fixed (d : Obj) (cat ty : String)
    (h : ∀ v, lookup d cat = some v → classifyEntities ty v = v) :
    classifyStep d cat ty = d := by
  unfold classifyStep
  by_cases hk : hasKeyb d cat = true
  · rw [if_pos hk]
    rw [hasKeyb_eq_isSome] at hk
    match hv : lookup d cat with
    | some v =>
      simp only [Option.getD_some]
      rw [h v hv]
      exact setKey_lookup_eq _ _ _ hv
    | none => rw [hv] at hk; simp at hk
  · rw [if_neg hk]

theorem classify_post_fixed (d : Obj) :
    classifySteps (setKey (classifySteps d) "layer_statistics"
        (getLayerStatistics (classifySteps d))) =
      setKey (classifySteps d) "layer_statistics" (getLayerStatistics (classifySteps d)) := by
  have hcl : ∀ v,
      lookup (setKey (classifySteps d) "layer_statistics"
        (getLayerStatistics (classifySteps d))) "classes" = some v →
      classifyEntities "class" v = v := by
    intro v hv
    rw [lookup_setKey_ne _ _ _ _ (by decide), lookup_classifySteps_classes] at hv
    match hw : lookup d "classes" with
    | some w => rw [hw] at hv; simp at hv; rw [← hv]; exact classifyEntities_idem _ _
    | none => rw [hw] at hv; simp at hv
  have hpr : ∀ v,
      lookup (setKey (classifySteps d) "layer_statistics"
        (getLayerStatistics (classifySteps d))) "properties" = some v →
      classifyEntities "property" v = v := by
    intro v hv
    rw [lookup_setKey_ne _ _ _ _ (by decide), lookup_classifySteps_properties] at hv
    match hw : lookup d "properties" with
    | some w => rw [hw] at hv; simp at hv; rw [← hv]; exact classifyEntities_idem _ _
    | none => rw [hw] at hv; simp at hv
  have hin : ∀ v,
      lookup (setKey (classifySteps d) "layer_statistics"
        (getLayerStatistics (classifySteps d))) "individuals" = some v →
      classifyEntities "individual" v = v := by
    intro v hv
    rw [lookup_setKey_ne _ _ _ _ (by decide), lookup_classifySteps_individuals] at hv
    match hw : lookup d "individuals" with
    | some w => rw [hw] at hv; simp at hv; rw [← hv]; exact classifyEntities_idem _ _
    | none => rw [hw] at hv; simp at hv
  show classifyStep (classifyStep (classifyStep _ "classes" "class") "properties" "property")
      "individuals" "individual" = _
  rw [classifyStep_of_fixed _ _ _ hcl, classifyStep_of_fixed _ _ _ hpr,
    classifyStep_of_fixed _ _ _ hin]

theorem classify_obj_no_error (d : Obj) (h : hasKeyb d "error" = false) :
    classify (.obj d) =
      .obj (setKey (classifySteps d) "layer_statistics"
        (getLayerStatistics (classifySteps d))) := by
  have h0 : classify (.obj d) =
      if hasKeyb d "error" = true then Val.obj d
      else .obj (setKey (classifySteps d) "layer_statistics"
        (getLayerStatistics (classifySteps d))) := rfl
  rw [h0, if_neg (by simp [h])]

/-! ## Importer lookup lemmas -/

theorem contains_filter (L : List String) (c : String → Bool) (g : String) :
    (L.filter c).contains g = (L.contains g && c g) := by
  induction L with
  | nil => simp
  | cons x t ih =>
    by_cases hx : c x = true
    · by_cases hg : x = g
      · subst hg
        simp [List.filter, hx, List.contains_cons, ih]
      · simp [List.filter, hx, List.contains_cons, ih, Ne.symm hg]
    · have hx' : c x = false := by simpa using hx
      by_cases hg : x = g
      · subst hg
        simp [List.filter, hx', List.contains_cons, ih]
      · simp [List.filter, hx', List.contains_cons, ih, Ne.symm hg]

theorem lookup_importCatByLayer (sink : Submission → Val) (fw gid titleWord bodyKey : String)
    (es : List Val) (grp : String) :
    lookup (importCatByLayer sink fw gid titleWord bodyKey es) grp =
      Option.map sink (layerGroupSubmission fw gid titleWord bodyKey es grp) := by
  unfold importCatByLayer layerGroupSubmission
  rw [lookup_map_keyed, contains_filter]
  by_cases h : ((["business", "technical", "core"] : List String).contains grp &&
      !(bucketByLayer es grp).isEmpty) = true
  · rw [if_pos h, if_pos h]
    rfl
  · rw [if_neg h, if_neg h]
    rfl

theorem addToGroup_vals_ne_nil (acc : List (String × List Val)) (k : String) (v : Val)
    (h : ∀ kv ∈ acc, kv.2 ≠ []) : ∀ kv ∈ addToGroup acc k v, kv.2 ≠ [] := by
  induction acc with
  | nil =>
    intro kv hkv
    simp [addToGroup] at hkv
    subst hkv
    simp
  | cons hd t ih =>
    intro kv hkv
    obtain ⟨k₀, l₀⟩ := hd
    unfold addToGroup at hkv
    split at hkv
    · rcases List.mem_cons.mp hkv with h1 | h1
      · subst h1; simp
      · exact h kv (List.mem_cons_of_mem _ h1)
    · rcases List.mem_cons.mp hkv with h1 | h1
      · subst h1; exact h (k₀, l₀) (List.mem_cons_self _ _)
      · exact ih (fun kv2 hkv2 => h kv2 (List.mem_cons_of_mem _ hkv2)) kv h1

theorem groupRels_aux_vals_ne_nil (rels : List Val) :
    ∀ (acc : List (String × List Val)), (∀ kv ∈ acc, kv.2 ≠ []) →
    ∀ kv ∈ rels.foldl (fun acc rel =>
      addToGroup acc (getStrD (asObj rel) "predicate_local_name" "unknown") rel) acc,
      kv.2 ≠ [] := by
  induction rels with
  | nil => intro acc hacc kv hkv; exact hacc kv hkv
  | cons r t ih =>
    intro acc hacc kv hkv
    exact ih _ (addToGroup_vals_ne_nil acc _ r hacc) kv hkv

theorem groupRels_vals_ne_nil (rels : List Val) : ∀ kv ∈ groupRels rels, kv.2 ≠ [] :=
  groupRels_aux_vals_ne_nil rels [] (by simp)

theorem filterMap_pos_len_eq_map {α β : Type} (L : List (String × List α))
    (f : String × List α → β) (h : ∀ kv ∈ L, kv.2 ≠ []) :
    (L.filterMap fun kv => if kv.2.length > 0 then some (f kv) else none) = L.map f := by
  induction L with
  | nil => rfl
  | cons hd t ih =>
    have hhd : hd.2 ≠ [] := h hd (List.mem_cons_self _ _)
    have hlen : hd.2.length > 0 := List.length_pos.mpr hhd
    simp only [List.filterMap_cons, List.map_cons, if_pos hlen]
    rw [ih (fun kv hkv => h kv (List.mem_cons_of_mem _ hkv))]

theorem lookup_importRelationships (sink : Submission → Val) (fw gid : String)
    (rels : List Val) (grp : String) :
    lookup (importRelationships sink fw gid rels) grp =
      Option.map sink ((lookup (groupRels rels) grp).map (relSubmission fw gid grp)) := by
  unfold importRelationships
  rw [filterMap_pos_len_eq_map _ _ (groupRels_vals_ne_nil rels)]
  rw [show ((groupRels rels).map fun kv => (kv.1, sink (relSubmission fw gid kv.1 kv.2))) =
      ((groupRels rels).map fun kv =>
        (kv.1, (fun k l => sink (relSubmission fw gid k l)) kv.1 kv.2)) from rfl]
  rw [lookup_map_pair (groupRels rels) (fun k l => sink (relSubmission fw gid k l)) grp]
  rw [Option.map_map]
  rfl

theorem lookup_condBlock_ne (c : Bool) (k₁ : String) (v : Val) (k : String)
    (h : (k₁ == k) = false) :
    lookup (if c then [(k₁, v)] else []) k = none := by
  split <;> simp [lookup, h]

theorem lookup_condBlock_self (c : Bool) (k₁ : String) (v : Val) :
    lookup (if c then [(k₁, v)] else []) k₁ = if c then some v else none := by
  split <;> simp [lookup]

theorem lookup_importResults_classes (sink : Submission → Val) (d : Obj) (gid fw : String) :
    lookup (importResults sink d gid fw) "classes" =
      if hasKeyb d "classes" then
        some (.obj (importCatByLayer sink fw gid "Classes" "classes" (esOf d "classes")))
      else none := by
  unfold importResults
  rw [lookup_append, lookup_append, lookup_append, lookup_append]
  rw [lookup_condBlock_ne _ _ _ _ (by decide), lookup_condBlock_self,
    lookup_condBlock_ne _ _ _ _ (by decide), lookup_condBlock_ne _ _ _ _ (by decide),
    lookup_condBlock_ne _ _ _ _ (by decide)]
  by_cases hc : hasKeyb d "classes" = true <;> simp [hc, Option.orElse]

theorem lookup_importResults_properties (sink : Submission → Val) (d : Obj) (gid fw : String) :
    lookup (importResults sink d gid fw) "properties" =
      if hasKeyb d "properties" then
        some (.obj (importCatByLayer sink fw gid "Properties" "properties" (esOf d "properties")))
      else none := by
  unfold importResults
  rw [lookup_append, lookup_append, lookup_append, lookup_append]
  rw [lookup_condBlock_ne _ _ _ _ (by decide), lookup_condBlock_ne _ _ _ _ (by decide),
    lookup_condBlock_self, lookup_condBlock_ne _ _ _ _ (by decide),
    lookup_condBlock_ne _ _ _ _ (by decide)]
  by_cases hc : hasKeyb d "properties" = true <;> simp [hc, Option.orElse]

theorem lookup_importResults_individuals (sink : Submission → Val) (d : Obj) (gid fw : String) :
    lookup (importResults sink d gid fw) "individuals" =
      if hasKeyb d "individuals" then
        some (.obj (importCatByLayer sink fw gid "Individuals" "individuals" (esOf d "individuals")))
      else none := by
  unfold importResults
  rw [lookup_append, lookup_append, lookup_append, lookup_append]
  rw [lookup_condBlock_ne _ _ _ _ (by decide), lookup_condBlock_ne _ _ _ _ (by decide),
    lookup_condBlock_ne _ _ _ _ (by decide), lookup_condBlock_self,
    lookup_condBlock_ne _ _ _ _ (by decide)]
  by_cases hc : hasKeyb d "individuals" = true <;> simp [hc, Option.orElse]

theorem lookup_importResults_relationships (sink : Submission → Val) (d : Obj) (gid fw : String) :
    lookup (importResults sink d gid fw) "relationships" =
      if hasKeyb d "relationships" then
        some (.obj (importRelationships sink fw gid (esOf d "relationships")))
      else none := by
  unfold importResults
  rw [lookup_append, lookup_append, lookup_append, lookup_append]
  rw [lookup_condBlock_ne _ _ _ _ (by decide), lookup_condBlock_ne _ _ _ _ (by decide),
    lookup_condBlock_ne _ _ _ _ (by decide), lookup_condBlock_ne _ _ _ _ (by decide),
    lookup_condBlock_self]
  by_cases hc : hasKeyb d "relationships" = true <;> simp [hc, Option.orElse]

/-! ## Helpers for the totality and frame claims -/

theorem c1_entity_helper (ty : String) (l : List Val) :
    ∀ e ∈ l.map (classifyEntity ty),
      entityLayers e ≠ [] ∧ getStrD (asObj e) "primary_layer" "" ∈ entityLayers e := by
  intro e he
  obtain ⟨v, _, rfl⟩ := List.mem_map.mp he
  refine ⟨?_, ?_⟩
  · rw [entityLayers_classifyEntity]
    exact determineLayers_ne_nil _ _
  · rw [entityLayers_classifyEntity, primary_classifyEntity]
    exact getPrimaryLayer_mem_determineLayers _ _

theorem c1_option_helper (ty : String) (w : Option Val) (e : Val)
    (he : e ∈ (match w.map (classifyEntities ty) with
               | some (.arr l) => l
               | _ => ([] : List Val))) :
    entityLayers e ≠ [] ∧ getStrD (asObj e) "primary_layer" "" ∈ entityLayers e := by
  match w with
  | none => exact absurd he (List.not_mem_nil e)
  | some (.str s) => exact absurd he (List.not_mem_nil e)
  | some (.bool b) => exact absurd he (List.not_mem_nil e)
  | some (.num n) => exact absurd he (List.not_mem_nil e)
  | some .null => exact absurd he (List.not_mem_nil e)
  | some (.obj o) => exact absurd he (List.not_mem_nil e)
  | some (.arr l) => exact c1_entity_helper ty l e he

theorem c10_length_helper (ty : String) (w : Option Val) :
    (match w.map (classifyEntities ty) with
     | some (.arr l) => l
     | _ => ([] : List Val)).length =
    (match w with
     | some (.arr l) => l
     | _ => ([] : List Val)).length := by
  match w with
  | none => rfl
  | some (.str s) => rfl
  | some (.bool b) => rfl
  | some (.num n) => rfl
  | some .null => rfl
  | some (.obj o) => rfl
  | some (.arr l) => exact List.length_map l _

theorem c10_elem_helper (ty : String) (w : Option Val) (i : Nat) (k : String)
    (h1 : k ≠ "layers") (h2 : k ≠ "primary_layer") :
    ((match w.map (classifyEntities ty) with
      | some (.arr l) => l
      | _ => ([] : List Val))[i]?).map (fun e => lookup (asObj e) k) =
    ((match w with
      | some (.arr l) => l
      | _ => ([] : List Val))[i]?).map (fun e => lookup (asObj e) k) := by
  match w with
  | none => rfl
  | some (.str s) => rfl
  | some (.bool b) => rfl
  | some (.num n) => rfl
  | some .null => rfl
  | some (.obj o) => rfl
  | some (.arr l) =>
    show ((l.map (classifyEntity ty))[i]?).map _ = (l[i]?).map _
    rw [List.getElem?_map]
    cases hv : l[i]? with
    | none => rfl
    | some v =>
      simp only [Option.map_some']
      rw [classifyEntity_lookup_other _ _ _ h1 h2]

/-! ## Claim theorems -/

/-- C2: for every layer list, `primary_layer` is `business` exactly when
`business` is a member; otherwise `core` exactly when `core` is a member;
otherwise `technical` — and the generic classifier's resolution rule
coincides with the ISO17025 and COBIT5 enhancers' rules. -/
theorem c2_primary_layer_priority (L : List String) :
    (getPrimaryLayer L = "business" ↔ "business" ∈ L) ∧
    ("business" ∉ L → (getPrimaryLayer L = "core" ↔ "core" ∈ L)) ∧
    ("business" ∉ L → "core" ∉ L → getPrimaryLayer L = "technical") ∧
    isoGetPrimaryLayer L = getPrimaryLayer L ∧
    cobitGetPrimaryLayer L = getPrimaryLayer L := by
  have hic : cobitGetPrimaryLayer L = isoGetPrimaryLayer L := rfl
  by_cases hE : L.isEmpty = true
  · have hL : L = [] := by simpa [List.isEmpty_iff] using hE
    subst hL
    refine ⟨by decide, fun _ => by decide, fun _ _ => rfl, rfl, rfl⟩
  · have hgen : getPrimaryLayer L = isoGetPrimaryLayer L := by
      unfold getPrimaryLayer isoGetPrimaryLayer
      rw [if_neg hE]
    rw [hgen, hic]
    refine ⟨?_, ?_, ?_, rfl, rfl⟩
    · unfold isoGetPrimaryLayer
      by_cases hb : L.contains "business" = true
      · rw [if_pos hb]
        simp [contains_mem L "business" |>.mp hb]
      · rw [if_neg hb]
        have hnb : "business" ∉ L := fun hm => hb ((contains_mem L "business").mpr hm)
        by_cases hc : L.contains "core" = true
        · rw [if_pos hc]
          simp [hnb]
        · rw [if_neg hc]
          simp [hnb]
    · intro hnb
      unfold isoGetPrimaryLayer
      rw [if_neg (fun hb => hnb ((contains_mem L "business").mp hb))]
      by_cases hc : L.contains "core" = true
      · rw [if_pos hc]
        simp [(contains_mem L "core").mp hc]
      · rw [if_neg hc]
        have hnc : "core" ∉ L := fun hm => hc ((contains_mem L "core").mpr hm)
        simp [hnc]
    · intro hnb hnc
      unfold isoGetPrimaryLayer
      rw [if_neg (fun hb => hnb ((contains_mem L "business").mp hb)),
        if_neg (fun hc => hnc ((contains_mem L "core").mp hc))]

/-- C2 witness: the priority rule applied at a concrete layer list. -/
theorem c2_witness :
    ("business" ∉ (["core", "technical"] : List String)) ∧
    getPrimaryLayer ["core", "technical"] = "core" :=
  ⟨by decide, ((c2_primary_layer_priority ["core", "technical"]).2.1 (by decide)).mpr (by decide)⟩

/-- C8: an entity whose combined relationship-reference count (sizes of
`subclass_of`, `superclass_of`, `domain`, `range` where present) is at least
3 always receives the `core` layer from the generic classifier. -/
theorem c8_relationship_density_core (e : Obj) (ty : String) (h : 3 ≤ relCount e) :
    "core" ∈ determineLayers e ty := by
  have hcore : isCoreEntity e (textContent e) = true := by
    unfold isCoreEntity
    have hd : decide (relCount e ≥ 3) = true := decide_eq_true h
    simp [hd]
  have hmem : "core" ∈ rawLayers e ty := by
    simp [rawLayers, hcore]
  unfold determineLayers
  have hne : rawLayers e ty ≠ [] := by
    intro hnil
    rw [hnil] at hmem
    exact List.not_mem_nil _ hmem
  rw [if_neg (by simpa [List.isEmpty_iff] using hne)]
  exact (mem_sortedSet _ _).mpr hmem

/-- C8 witness: a property with two domain references and one range
reference is assigned `core`. -/
theorem c8_witness :
    3 ≤ relCount (asObj threeRefProperty) ∧
    "core" ∈ determineLayers (asObj threeRefProperty) "property" :=
  ⟨by decide, c8_relationship_density_core (asObj threeRefProperty) "property" (by decide)⟩

/-- C6 counterexample: a class record exactly as `_extract_classes` builds
it carries no `type` key, its technical test fails, and `technical` is not
among its layers — refuting the claim's "hence for every extracted class
entity" at the concrete class `GovernanceControl`. -/
theorem c6_counterexample :
    hasKeyb (asObj govControlClass) "type" = false ∧
    isTechnicalEntity (asObj govControlClass) (textContent (asObj govControlClass)) = false ∧
    determineLayers (asObj govControlClass) "class" = ["business", "core"] ∧
    "technical" ∉ (["business", "core"] : List String) :=
  ⟨rfl, by decide, rfl, by decide⟩

/-- C6 (amended): for every entity whose `type` field contains `Property`
or equals `Class`/`Restriction`, the technical test matches and `technical`
is among its layers; the parser sets such a `type` on every extracted
property entity (but extracted class entities carry no `type` field). -/
theorem c6_declared_kind_technical :
    (∀ (e : Obj) (ty : String),
      (strContains (getStrD e "type" "") "Property" = true ∨
       getStrD e "type" "" = "Class" ∨ getStrD e "type" "" = "Restriction") →
      isTechnicalEntity e (textContent e) = true ∧ "technical" ∈ determineLayers e ty) ∧
    (∀ (uri localName prefixedName propType label comment description : String)
       (dom rng sub inv : List String) (f1 f2 f3 f4 f5 f6 f7 : Bool),
      propType ∈ (["ObjectProperty", "DatatypeProperty", "AnnotationProperty"] : List String) →
      "technical" ∈ determineLayers
        (asObj (buildPropertyData uri localName prefixedName propType label comment description
          dom rng sub inv f1 f2 f3 f4 f5 f6 f7)) "property") := by
  have main : ∀ (e : Obj) (ty : String),
      (strContains (getStrD e "type" "") "Property" = true ∨
       getStrD e "type" "" = "Class" ∨ getStrD e "type" "" = "Restriction") →
      isTechnicalEntity e (textContent e) = true ∧ "technical" ∈ determineLayers e ty := by
    intro e ty h
    have htech : isTechnicalEntity e (textContent e) = true := by
      unfold isTechnicalEntity
      rcases h with h | h | h
      · simp [h]
      · simp [h]
      · simp [h]
    refine ⟨htech, ?_⟩
    have hmem : "technical" ∈ rawLayers e ty := by
      simp [rawLayers, htech]
    unfold determineLayers
    have hne : rawLayers e ty ≠ [] := by
      intro hnil
      rw [hnil] at hmem
      exact List.not_mem_nil _ hmem
    rw [if_neg (by simpa [List.isEmpty_iff] using hne)]
    exact (mem_sortedSet _ _).mpr hmem
  refine ⟨main, ?_⟩
  intro uri localName prefixedName propType label comment description dom rng sub inv
    f1 f2 f3 f4 f5 f6 f7 hpt
  simp at hpt
  have hty : getStrD
      (asObj (buildPropertyData uri localName prefixedName propType label comment description
        dom rng sub inv f1 f2 f3 f4 f5 f6 f7)) "type" "" = propType := rfl
  rcases hpt with rfl | rfl | rfl
  · exact (main _ "property" (Or.inl (by rw [hty]; decide))).2
  · exact (main _ "property" (Or.inl (by rw [hty]; decide))).2
  · exact (main _ "property" (Or.inl (by rw [hty]; decide))).2

/-- C6 witness: a concrete `ObjectProperty` record receives `technical`. -/
theorem c6_witness :
    getStrD (asObj threeRefProperty) "type" "" = "ObjectProperty" ∧
    "technical" ∈ determineLayers (asObj threeRefProperty) "property" :=
  ⟨rfl, c6_declared_kind_technical.2 "http://example.org/onto#relates" "relates" "ex:relates"
    "ObjectProperty" "" "" "" ["http://example.org/onto#A", "http://example.org/onto#B"]
    ["http://example.org/onto#C"] [] [] false false false false false false false (by decide)⟩

/-- C7 counterexample: with namespaces `a ↦ http://x/` (first) and
`b ↦ http://x/y/` (second, longer), the code prefixes `http://x/y/z` with
the first table entry `a`, not with the longest-matching namespace `b`. -/
theorem c7_counterexample :
    getPrefixedName [("a", "http://x/"), ("b", "http://x/y/")] "http://x/y/z" = "a:y/z" ∧
    specLongestMatchName [("a", "http://x/"), ("b", "http://x/y/")] "http://x/y/z" = "b:z" ∧
    ("a:y/z" : String) ≠ "b:z" :=
  ⟨rfl, rfl, by decide⟩

/-- C7 (amended): the prefixed name comes from the first namespace in table
iteration order whose URI is a prefix of the entity URI (`prefix:rest`, or
the bare rest for the empty prefix); when none matches it falls back to
`_get_local_name`: the text after the last `#`, else after the last `/`,
else the whole URI. -/
theorem c7_prefixed_name_first_match (nsMap : List (String × String)) (uri : String) :
    getPrefixedName nsMap uri =
      match List.find? (fun en => strStarts uri en.2) nsMap with
      | some en => mkPrefixed en uri
      | none => getLocalName uri := by
  induction nsMap with
  | nil => rfl
  | cons en t ih =>
    obtain ⟨p, ns⟩ := en
    simp only [getPrefixedName]
    by_cases h : strStarts uri ns = true
    · rw [if_pos h, List.find?_cons_of_pos _ (by exact h)]
    · rw [if_neg h, List.find?_cons_of_neg _ (by simpa using h)]
      exact ih

/-- C3: each per-entity enhancement step of both domain enhancers unions
its own layers into the entity's existing `layers`, so every previously
assigned layer survives enhancement. -/
theorem c3_enhancement_monotone (v : Val) (x : String) (hx : x ∈ entityLayers v) :
    x ∈ entityLayers (isoEnhanceClassEntity v) ∧
    x ∈ entityLayers (isoEnhancePropertyEntity v) ∧
    x ∈ entityLayers (isoEnhanceIndividualEntity v) ∧
    x ∈ entityLayers (cobitEnhanceClassEntity v) ∧
    x ∈ entityLayers (cobitEnhancePropertyEntity v) ∧
    x ∈ entityLayers (cobitEnhanceIndividualEntity v) := by
  refine ⟨?_, ?_, ?_, ?_, ?_, ?_⟩
  · rw [entityLayers_isoEnhanceClassEntity]
    exact mem_sortedSet_append_left x _ _ hx
  · rw [entityLayers_isoEnhancePropertyEntity]
    exact mem_sortedSet_append_left x _ _ hx
  · rw [entityLayers_isoEnhanceIndividualEntity]
    exact mem_sortedSet_append_left x _ _ hx
  · rw [entityLayers_cobitEnhanceClassEntity]
    exact mem_sortedSet_append_left x _ _ hx
  · rw [entityLayers_cobitEnhancePropertyEntity]
    exact mem_sortedSet_append_left x _ _ hx
  · rw [entityLayers_cobitEnhanceIndividualEntity]
    exact mem_sortedSet_append_left x _ _ hx

/-- C3 witness: the `technical` layer of a classified entity survives all
six enhancement steps. -/
theorem c3_witness :
    "technical" ∈ entityLayers techOnlyEntity ∧
    "technical" ∈ entityLayers (isoEnhanceClassEntity techOnlyEntity) ∧
    "technical" ∈ entityLayers (cobitEnhanceClassEntity techOnlyEntity) := by
  have h := c3_enhancement_monotone techOnlyEntity "technical" (by decide)
  exact ⟨by decide, h.1, h.2.2.2.1⟩

/-- C1: on a model without the error marker, `classify` gives every class,
property and individual a non-empty `layers` list with `primary_layer`
drawn from it (the embedding is a total function, mirroring the
exception-free source). -/
theorem c1_classify_total (m : Val) (herr : vHasKey m "error" = false)
    (cat : String) (hcat : cat ∈ (["classes", "properties", "individuals"] : List String))
    (e : Val) (he : e ∈ entitiesOf (classify m) cat) :
    entityLayers e ≠ [] ∧ getStrD (asObj e) "primary_layer" "" ∈ entityLayers e := by
  match m with
  | .str s => exact absurd he (List.not_mem_nil e)
  | .bool b => exact absurd he (List.not_mem_nil e)
  | .num n => exact absurd he (List.not_mem_nil e)
  | .null => exact absurd he (List.not_mem_nil e)
  | .arr l => exact absurd he (List.not_mem_nil e)
  | .obj d =>
    have herr' : hasKeyb d "error" = false := herr
    have hcm : classify (.obj d) = .obj (setKey (classifySteps d) "layer_statistics"
        (getLayerStatistics (classifySteps d))) := classify_obj_no_error d herr'
    rw [hcm] at he
    unfold entitiesOf vLookup at he
    simp only [asObj] at he
    simp at hcat
    rcases hcat with rfl | rfl | rfl
    · rw [lookup_setKey_ne _ _ _ _ (by decide), lookup_classifySteps_classes] at he
      exact c1_option_helper "class" (lookup d "classes") e he
    · rw [lookup_setKey_ne _ _ _ _ (by decide), lookup_classifySteps_properties] at he
      exact c1_option_helper "property" (lookup d "properties") e he
    · rw [lookup_setKey_ne _ _ _ _ (by decide), lookup_classifySteps_individuals] at he
      exact c1_option_helper "individual" (lookup d "individuals") e he

/-- C1 witness: the classified `GovernanceControl` class of a concrete
model has non-empty layers containing its primary layer. -/
theorem c1_witness :
    vHasKey oneClassModel "error" = false ∧
    (entityLayers (classifyEntity "class" govControlClass) ≠ [] ∧
     getStrD (asObj (classifyEntity "class" govControlClass)) "primary_layer" "" ∈
       entityLayers (classifyEntity "class" govControlClass)) :=
  ⟨rfl, c1_classify_total oneClassModel rfl "classes" (by decide)
    (classifyEntity "class" govControlClass) (List.mem_singleton.mpr rfl)⟩

/-- C9: running the generic classifier on its own output (whose extra
`layers`, `primary_layer` and `layer_statistics` fields it does not read)
reproduces that output exactly. -/
theorem c9_classify_idempotent (m : Val) (herr : vHasKey m "error" = false) :
    classify (classify m) = classify m := by
  match m with
  | .str s => rfl
  | .bool b => rfl
  | .num n => rfl
  | .null => rfl
  | .arr l => rfl
  | .obj d =>
    have herr' : hasKeyb d "error" = false := herr
    have hcm : classify (.obj d) = .obj (setKey (classifySteps d) "layer_statistics"
        (getLayerStatistics (classifySteps d))) := classify_obj_no_error d herr'
    rw [hcm]
    have herr2 : hasKeyb (setKey (classifySteps d) "layer_statistics"
        (getLayerStatistics (classifySteps d))) "error" = false := by
      rw [hasKeyb_setKey_ne _ _ _ _ (by decide), hasKeyb_classifySteps]
      exact herr'
    rw [classify_obj_no_error _ herr2]
    rw [classify_post_fixed d]
    have hstat : getLayerStatistics (setKey (classifySteps d) "layer_statistics"
        (getLayerStatistics (classifySteps d))) = getLayerStatistics (classifySteps d) := by
      apply getLayerStatistics_congr <;> rw [lookup_setKey_ne _ _ _ _ (by decide)]
    rw [hstat]
    congr 1
    exact setKey_lookup_eq _ _ _ (lookup_setKey_self _ _ _)

/-- C9 witness: re-classifying a concrete classified model changes
nothing. -/
theorem c9_witness :
    vHasKey oneClassModel "error" = false ∧
    classify (classify oneClassModel) = classify oneClassModel :=
  ⟨rfl, c9_classify_idempotent oneClassModel rfl⟩

/-- C10: `classify` only adds `layers`/`primary_layer` to each entity and
the top-level `layer_statistics`: every other top-level key (metadata,
relationships, statistics, namespaces, …), the category key presence, each
category's length and order, and every other entity field keep their input
values. -/
theorem c10_classify_frame (m : Val) (herr : vHasKey m "error" = false) :
    (∀ k : String,
      k ∉ (["classes", "properties", "individuals", "layer_statistics"] : List String) →
      vLookup (classify m) k = vLookup m k) ∧
    (∀ cat ∈ (["classes", "properties", "individuals"] : List String),
      vHasKey (classify m) cat = vHasKey m cat ∧
      (entitiesOf (classify m) cat).length = (entitiesOf m cat).length ∧
      (∀ (i : Nat) (k : String), k ≠ "layers" → k ≠ "primary_layer" →
        ((entitiesOf (classify m) cat)[i]?).map (fun e => lookup (asObj e) k) =
        ((entitiesOf m cat)[i]?).map (fun e => lookup (asObj e) k))) := by
  match m with
  | .str s => exact ⟨fun k _ => rfl, fun cat _ => ⟨rfl, rfl, fun i k _ _ => rfl⟩⟩
  | .bool b => exact ⟨fun k _ => rfl, fun cat _ => ⟨rfl, rfl, fun i k _ _ => rfl⟩⟩
  | .num n => exact ⟨fun k _ => rfl, fun cat _ => ⟨rfl, rfl, fun i k _ _ => rfl⟩⟩
  | .null => exact ⟨fun k _ => rfl, fun cat _ => ⟨rfl, rfl, fun i k _ _ => rfl⟩⟩
  | .arr l => exact ⟨fun k _ => rfl, fun cat _ => ⟨rfl, rfl, fun i k _ _ => rfl⟩⟩
  | .obj d =>
    have herr' : hasKeyb d "error" = false := herr
    have hcm : classify (.obj d) = .obj (setKey (classifySteps d) "layer_statistics"
        (getLayerStatistics (classifySteps d))) := classify_obj_no_error d herr'
    rw [hcm]
    constructor
    · intro k hk
      simp only [List.mem_cons, List.mem_singleton, not_or] at hk
      obtain ⟨hk1, hk2, hk3, hk4, _⟩ := hk
      show lookup (setKey (classifySteps d) "layer_statistics"
        (getLayerStatistics (classifySteps d))) k = lookup d k
      rw [lookup_setKey_ne _ _ _ _ hk4, lookup_classifySteps_ne _ _ hk1 hk2 hk3]
    · intro cat hcat
      simp at hcat
      rcases hcat with rfl | rfl | rfl
      · refine ⟨?_, ?_, ?_⟩
        · show hasKeyb (setKey (classifySteps d) "layer_statistics"
            (getLayerStatistics (classifySteps d))) "classes" = hasKeyb d "classes"
          rw [hasKeyb_setKey_ne _ _ _ _ (by decide), hasKeyb_classifySteps]
        · unfold entitiesOf vLookup
          simp only [asObj]
          rw [lookup_setKey_ne _ _ _ _ (by decide), lookup_classifySteps_classes]
          exact c10_length_helper "class" (lookup d "classes")
        · intro i k h1 h2
          unfold entitiesOf vLookup
          simp only [asObj]
          rw [lookup_setKey_ne _ _ _ _ (by decide), lookup_classifySteps_classes]
          exact c10_elem_helper "class" (lookup d "classes") i k h1 h2
      · refine ⟨?_, ?_, ?_⟩
        · show hasKeyb (setKey (classifySteps d) "layer_statistics"
            (getLayerStatistics (classifySteps d))) "properties" = hasKeyb d "properties"
          rw [hasKeyb_setKey_ne _ _ _ _ (by decide), hasKeyb_classifySteps]
        · unfold entitiesOf vLookup
          simp only [asObj]
          rw [lookup_setKey_ne _ _ _ _ (by decide), lookup_classifySteps_properties]
          exact c10_length_helper "property" (lookup d "properties")
        · intro i k h1 h2
          unfold entitiesOf vLookup
          simp only [asObj]
          rw [lookup_setKey_ne _ _ _ _ (by decide), lookup_classifySteps_properties]
          exact c10_elem_helper "property" (lookup d "properties") i k h1 h2
      · refine ⟨?_, ?_, ?_⟩
        · show hasKeyb (setKey (classifySteps d) "layer_statistics"
            (getLayerStatistics (classifySteps d))) "individuals" = hasKeyb d "individuals"
          rw [hasKeyb_setKey_ne _ _ _ _ (by decide), hasKeyb_classifySteps]
        · unfold entitiesOf vLookup
          simp only [asObj]
          rw [lookup_setKey_ne _ _ _ _ (by decide), lookup_classifySteps_individuals]
          exact c10_length_helper "individual" (lookup d "individuals")
        · intro i k h1 h2
          unfold entitiesOf vLookup
          simp only [asObj]
          rw [lookup_setKey_ne _ _ _ _ (by decide), lookup_classifySteps_individuals]
          exact c10_elem_helper "individual" (lookup d "individuals") i k h1 h2

/-- C10 witness: classifying a concrete model leaves its metadata and the
class's `uri` untouched. -/
theorem c10_witness :
    vHasKey metaClassModel "error" = false ∧
    vLookup (classify metaClassModel) "metadata" = vLookup metaClassModel "metadata" ∧
    ((entitiesOf (classify metaClassModel) "classes")[0]?).map
        (fun e => lookup (asObj e) "uri") =
      ((entitiesOf metaClassModel "classes")[0]?).map (fun e => lookup (asObj e) "uri") := by
  have h := c10_classify_frame metaClassModel rfl
  exact ⟨rfl, h.1 "metadata" (by decide),
    (h.2 "classes" (by decide)).2.2 0 "uri" (by decide) (by decide)⟩

/-- C4 counterexample: the ISO17025 enhancer does not return an
error-marked model unchanged — it appends its `iso17025_analysis` key. -/
theorem c4_counterexample : isoEnhanceClassification c4ErrModel ≠ c4ErrModel := by
  intro h
  have h2 := congrArg (fun v => vHasKey v "iso17025_analysis") h
  exact absurd h2 (by decide)

/-- C4 (amended): the generic classifier returns every error-marked model
unchanged, but the enhancers perform no error check: on a pure error
sentinel they process no entities yet still append their framework-analysis
key, so their output is not the input. -/
theorem c4_error_passthrough_amended :
    (∀ m : Val, vHasKey m "error" = true → classify m = m) ∧
    (∀ s : String, isoEnhanceClassification (.obj [("error", .str s)]) =
      .obj [("error", .str s), ("iso17025_analysis", isoEmptyAnalysis)]) ∧
    (∀ s : String, cobitEnhanceClassification (.obj [("error", .str s)]) =
      .obj [("error", .str s), ("cobit5_analysis", cobitEmptyAnalysis)]) := by
  have hstep : ∀ (f : Val → Val) (s : String) (cat : String),
      hasKeyb [("error", Val.str s)] cat = false →
      enhanceStep f [("error", Val.str s)] cat = [("error", Val.str s)] := by
    intro f s cat hk
    unfold enhanceStep
    rw [if_neg (by simp [hk])]
  refine ⟨?_, ?_, ?_⟩
  · intro m herr
    match m with
    | .str s => rfl
    | .bool b => rfl
    | .num n => rfl
    | .null => rfl
    | .arr l => rfl
    | .obj d =>
      have h0 : classify (.obj d) =
          if hasKeyb d "error" = true then Val.obj d
          else .obj (setKey (classifySteps d) "layer_statistics"
            (getLayerStatistics (classifySteps d))) := rfl
      rw [h0, if_pos (by exact herr)]
  · intro s
    have h0 : isoEnhanceClassification (.obj [("error", Val.str s)]) =
        .obj (setKey
          (enhanceStep isoEnhanceIndividualEntity
            (enhanceStep isoEnhancePropertyEntity
              (enhanceStep isoEnhanceClassEntity [("error", Val.str s)] "classes")
              "properties") "individuals")
          "iso17025_analysis"
          (generateIso17025Analysis
            (enhanceStep isoEnhanceIndividualEntity
              (enhanceStep isoEnhancePropertyEntity
                (enhanceStep isoEnhanceClassEntity [("error", Val.str s)] "classes")
                "properties") "individuals"))) := rfl
    rw [h0, hstep isoEnhanceClassEntity s "classes" rfl,
      hstep isoEnhancePropertyEntity s "properties" rfl,
      hstep isoEnhanceIndividualEntity s "individuals" rfl]
    have hgen : generateIso17025Analysis [("error", Val.str s)] = isoEmptyAnalysis := by
      unfold generateIso17025Analysis
      simp only [show (lookup [("error", Val.str s)] "classes" : Option Val) = none from rfl,
        show (lookup [("error", Val.str s)] "properties" : Option Val) = none from rfl,
        show (lookup [("error", Val.str s)] "individuals" : Option Val) = none from rfl]
      rfl
    rw [hgen]
    rfl
  · intro s
    have h0 : cobitEnhanceClassification (.obj [("error", Val.str s)]) =
        .obj (setKey
          (enhanceStep cobitEnhanceIndividualEntity
            (enhanceStep cobitEnhancePropertyEntity
              (enhanceStep cobitEnhanceClassEntity [("error", Val.str s)] "classes")
              "properties") "individuals")
          "cobit5_analysis"
          (generateCobit5Analysis
            (enhanceStep cobitEnhanceIndividualEntity
              (enhanceStep cobitEnhancePropertyEntity
                (enhanceStep cobitEnhanceClassEntity [("error", Val.str s)] "classes")
                "properties") "individuals"))) := rfl
    rw [h0, hstep cobitEnhanceClassEntity s "classes" rfl,
      hstep cobitEnhancePropertyEntity s "properties" rfl,
      hstep cobitEnhanceIndividualEntity s "individuals" rfl]
    have hgen : generateCobit5Analysis [("error", Val.str s)] = cobitEmptyAnalysis := by
      unfold generateCobit5Analysis
      simp only [show (lookup [("error", Val.str s)] "classes" : Option Val) = none from rfl,
        show (lookup [("error", Val.str s)] "properties" : Option Val) = none from rfl,
        show (lookup [("error", Val.str s)] "individuals" : Option Val) = none from rfl,
        show (lookup [("error", Val.str s)] "layer_statistics" : Option Val) = none from rfl]
      rfl
    rw [hgen]
    rfl

/-- C4 witness: the amended behaviour at the concrete error model. -/
theorem c4_witness :
    vHasKey c4ErrModel "error" = true ∧
    classify c4ErrModel = c4ErrModel ∧
    isoEnhanceClassification c4ErrModel =
      .obj [("error", .str "Parsing failed: bad syntax"),
            ("iso17025_analysis", isoEmptyAnalysis)] ∧
    cobitEnhanceClassification c4ErrModel =
      .obj [("error", .str "Parsing failed: bad syntax"),
            ("cobit5_analysis", cobitEmptyAnalysis)] :=
  ⟨rfl, c4_error_passthrough_amended.1 c4ErrModel rfl,
    c4_error_passthrough_amended.2.1 "Parsing failed: bad syntax",
    c4_error_passthrough_amended.2.2 "Parsing failed: bad syntax"⟩

/-- C5: the result the importer records for any layer/category/relationship
group equals the sink's answer to that group's own submission — a function
of the model alone — so a failure value returned for one group neither
changes which other groups are attempted nor what is recorded for them. -/
theorem c5_import_group_isolation (sink : Submission → Val) (m : Val)
    (gid fw now cat grp : String) (herr : vHasKey m "error" = false)
    (hcat : cat ∈ (["classes", "properties", "individuals", "relationships"] : List String)) :
    importResultFor (importWithLayers sink now m gid fw) cat grp =
      Option.map sink (groupSubmission m gid fw cat grp) := by
  match m with
  | .str s => rfl
  | .bool b => rfl
  | .num n => rfl
  | .null => rfl
  | .arr l => rfl
  | .obj d =>
    have herr' : hasKeyb d "error" = false := herr
    have him : importWithLayers sink now (.obj d) gid fw =
        .obj [("success", .bool true), ("results", .obj (importResults sink d gid fw)),
              ("summary", generateImportSummary now (importResults sink d gid fw) d)] := by
      have h0 : importWithLayers sink now (.obj d) gid fw =
          if hasKeyb d "error" = true then
            .obj [("success", .bool false), ("error", (lookup d "error").getD .null)]
          else
            .obj [("success", .bool true), ("results", .obj (importResults sink d gid fw)),
                  ("summary", generateImportSummary now (importResults sink d gid fw) d)] := rfl
      rw [h0, if_neg (by simp [herr'])]
    rw [him]
    have hres : ∀ x y,
        importResultFor (.obj [("success", x), ("results", .obj (importResults sink d gid fw)),
          ("summary", y)]) cat grp =
        (match lookup (importResults sink d gid fw) cat with
         | some (.obj catRes) => lookup catRes grp
         | _ => none) := fun x y => rfl
    rw [hres]
    have hgs : groupSubmission (.obj d) gid fw cat grp =
        (if cat == "classes" then
          if hasKeyb d "classes" then
            layerGroupSubmission fw gid "Classes" "classes" (esOf d "classes") grp
          else none
        else if cat == "properties" then
          if hasKeyb d "properties" then
            layerGroupSubmission fw gid "Properties" "properties" (esOf d "properties") grp
          else none
        else if cat == "individuals" then
          if hasKeyb d "individuals" then
            layerGroupSubmission fw gid "Individuals" "individuals" (esOf d "individuals") grp
          else none
        else if cat == "relationships" then
          if hasKeyb d "relationships" then
            (lookup (groupRels (esOf d "relationships")) grp).map (relSubmission fw gid grp)
          else none
        else none) := by
      have h0 : groupSubmission (.obj d) gid fw cat grp =
          if hasKeyb d "error" = true then none
          else if cat == "classes" then
            if hasKeyb d "classes" then
              layerGroupSubmission fw gid "Classes" "classes" (esOf d "classes") grp
            else none
          else if cat == "properties" then
            if hasKeyb d "properties" then
              layerGroupSubmission fw gid "Properties" "properties" (esOf d "properties") grp
            else none
          else if cat == "individuals" then
            if hasKeyb d "individuals" then
              layerGroupSubmission fw gid "Individuals" "individuals" (esOf d "individuals") grp
            else none
          else if cat == "relationships" then
            if hasKeyb d "relationships" then
              (lookup (groupRels (esOf d "relationships")) grp).map (relSubmission fw gid grp)
            else none
          else none := rfl
      rw [h0, if_neg (by simp [herr'])]
    rw [hgs]
    simp at hcat
    rcases hcat with rfl | rfl | rfl | rfl
    · rw [lookup_importResults_classes]
      by_cases hc : hasKeyb d "classes" = true
      · rw [if_pos hc, if_pos hc]
        exact lookup_importCatByLayer sink fw gid "Classes" "classes" (esOf d "classes") grp
      · rw [if_neg hc, if_neg hc]
        rfl
    · rw [lookup_importResults_properties]
      by_cases hc : hasKeyb d "properties" = true
      · rw [if_pos hc, if_pos hc]
        exact lookup_importCatByLayer sink fw gid "Properties" "properties" (esOf d "properties") grp
      · rw [if_neg hc, if_neg hc]
        rfl
    · rw [lookup_importResults_individuals]
      by_cases hc : hasKeyb d "individuals" = true
      · rw [if_pos hc, if_pos hc]
        exact lookup_importCatByLayer sink fw gid "Individuals" "individuals" (esOf d "individuals") grp
      · rw [if_neg hc, if_neg hc]
        rfl
    · rw [lookup_importResults_relationships]
      by_cases hc : hasKeyb d "relationships" = true
      · rw [if_pos hc, if_pos hc]
        exact lookup_importRelationships sink fw gid (esOf d "relationships") grp
      · rw [if_neg hc, if_neg hc]
        rfl

/-- C5 witness: the recorded result for the business class group of a
concrete model equals the sink applied to that group's own submission. -/
theorem c5_witness :
    vHasKey twoLayerModel "error" = false ∧
    importResultFor (importWithLayers nameSink "2026-01-01T00:00:00" twoLayerModel "g1" "Generic")
        "classes" "business" =
      Option.map nameSink (groupSubmission twoLayerModel "g1" "Generic" "classes" "business") :=
  ⟨rfl, c5_import_group_isolation nameSink twoLayerModel "g1" "Generic" "2026-01-01T00:00:00"
    "classes" "business" rfl (by decide)⟩

end Maria
